import Mathlib

/-!
# Mouse jiggler firmware (`src/main.c`): shallow embedding

The C translation unit keeps five pieces of mutable state: the global `enabled`, the two
function-local statics of `read_debounced_button` and the two function-local statics of
`hid_task`.  They are gathered in one record that every function receives and returns.

Calls into the board layer, the USB stack and the RNG are modelled in two halves: the values
those calls return are inputs of the step functions (`ButtonIn`, `HidIn`), and every call that is
made is recorded, in program order, in the returned trace (`List Ext`).

`uint32_t` values are natural numbers below `2 ^ 32`; subtraction and addition wrap explicitly.
-/

namespace MouseJiggler

/-! ## Machine arithmetic -/

/-- Wrapping `uint32_t` subtraction `a - b`. -/
def sub32 (a b : Nat) : Nat := (a % 4294967296 + 4294967296 - b % 4294967296) % 4294967296

/-- Wrapping `uint32_t` addition `a + b`. -/
def add32 (a b : Nat) : Nat := (a + b) % 4294967296

/-- Conversion of an integer value to `int8_t` (two's complement, as GCC defines it). -/
def toInt8 (n : Nat) : Int :=
  if n % 256 < 128 then ((n % 256 : Nat) : Int) else ((n % 256 : Nat) : Int) - 256

/-! ## State and external calls -/

/-- The mutable state of `main.c`: the global `enabled` (line 36), the statics of
`read_debounced_button` (lines 117-118) and the statics of `hid_task` (lines 155, 171). -/
structure State where
  enabled : Bool
  last_button_state : Nat
  last_debounce_time : Nat
  wake_start_ms : Nat
  mouse_start_ms : Nat
deriving DecidableEq, Repr

/-- Values of the static initialisers. -/
def State.init : State :=
  { enabled := true, last_button_state := 0, last_debounce_time := 0,
    wake_start_ms := 0, mouse_start_ms := 0 }

/-- One call that `main.c` makes into the board layer, the USB stack or the RNG. -/
inductive Ext where
  | board_button_read
  | board_millis
  | board_led_write (state : Bool)
  | tud_suspended
  | tud_remote_wakeup
  | tud_hid_ready
  | get_rand_32
  | tud_hid_mouse_report (report_id buttons : Nat) (x y vertical horizontal : Int)
deriving DecidableEq, Repr

/-- What the environment returns during one call of `read_debounced_button`: the raw button
level, the clock value of the `board_millis()` on line 125 (read only when the raw level differs
from `last_button_state`) and the clock value of the `board_millis()` on line 128. -/
structure ButtonIn where
  raw : Nat
  t1 : Nat
  t2 : Nat
deriving DecidableEq, Repr

/-- What the environment returns during one call of `hid_task`: the clock values of the
`board_millis()` on line 157 and on line 173, `tud_suspended()`, `tud_hid_ready()` and
`get_rand_32()`.  Values the call does not ask for are ignored. -/
structure HidIn where
  now1 : Nat
  now2 : Nat
  suspended : Bool
  hid_ready : Bool
  r32 : Nat
deriving DecidableEq, Repr

/-! ## Debounced button reader and toggle controller -/

/-- Embedding of `read_debounced_button` (lines 114-134): new state, returned value, trace. -/
def read_debounced_button (s : State) (i : ButtonIn) : State × Nat × List Ext :=
  let current_button_state := i.raw
  let changed : Bool := decide (current_button_state ≠ s.last_button_state)
  let last_debounce_time := if changed then i.t1 else s.last_debounce_time
  let tr1 := if changed then [Ext.board_button_read, Ext.board_millis] else [Ext.board_button_read]
  let last_button_state :=
    if sub32 i.t2 last_debounce_time > 50 then current_button_state else s.last_button_state
  ({ enabled := s.enabled, last_button_state := last_button_state,
     last_debounce_time := last_debounce_time,
     wake_start_ms := s.wake_start_ms, mouse_start_ms := s.mouse_start_ms },
   last_button_state, tr1 ++ [Ext.board_millis])

/-- The C expression `1 - enabled` converted back to `bool`. -/
def one_minus (enabled : Bool) : Bool :=
  decide ((1 : Int) - (if enabled then 1 else 0) ≠ 0)

/-- Embedding of `button_task` (lines 136-147): new state and trace. -/
def button_task (s : State) (i : ButtonIn) : State × List Ext :=
  let r := read_debounced_button s i
  let btn := r.2.1
  if btn ≠ 0 then
    let enabled := one_minus r.1.enabled
    ({ enabled := enabled, last_button_state := r.1.last_button_state,
       last_debounce_time := r.1.last_debounce_time,
       wake_start_ms := r.1.wake_start_ms, mouse_start_ms := r.1.mouse_start_ms },
     r.2.2 ++ [Ext.board_led_write enabled])
  else (r.1, r.2.2)

/-! ## Report emitter and scheduler -/

/-- Embedding of `send_hid_report` (lines 96-112).  `REPORT_ID_MOUSE` comes from
`usb_descriptors.h`, which is not part of the sources at hand, and is a parameter; `report_id`
is the `uint8_t` argument. -/
def send_hid_report (REPORT_ID_MOUSE : Nat) (report_id : Nat) (i : HidIn) : List Ext :=
  if !i.hid_ready then [Ext.tud_hid_ready]
  else if report_id = REPORT_ID_MOUSE then
    let r32 := i.r32
    let x_delta := toInt8 (r32 &&& 0xFF)
    let y_delta := toInt8 ((r32 >>> 8) &&& 0xFF)
    [Ext.tud_hid_ready, Ext.get_rand_32,
     Ext.tud_hid_mouse_report (REPORT_ID_MOUSE % 256) 0 x_delta y_delta 0 0]
  else [Ext.tud_hid_ready]

/-- Embedding of `hid_task` (lines 151-181): new state and trace. -/
def hid_task (REPORT_ID_MOUSE : Nat) (s : State) (i : HidIn) : State × List Ext :=
  if sub32 i.now1 s.wake_start_ms < 10 then (s, [Ext.board_millis])
  else
    let wake_start_ms := add32 s.wake_start_ms 10
    let tr1 := if i.suspended then [Ext.board_millis, Ext.tud_suspended, Ext.tud_remote_wakeup]
               else [Ext.board_millis, Ext.tud_suspended]
    if sub32 i.now2 s.mouse_start_ms < 5000 then
      ({ enabled := s.enabled, last_button_state := s.last_button_state,
         last_debounce_time := s.last_debounce_time,
         wake_start_ms := wake_start_ms, mouse_start_ms := s.mouse_start_ms },
       tr1 ++ [Ext.board_millis])
    else
      let mouse_start_ms := add32 s.mouse_start_ms 5000
      let s2 : State :=
        { enabled := s.enabled, last_button_state := s.last_button_state,
          last_debounce_time := s.last_debounce_time,
          wake_start_ms := wake_start_ms, mouse_start_ms := mouse_start_ms }
      if !s.enabled then (s2, tr1 ++ [Ext.board_millis])
      else (s2, tr1 ++ [Ext.board_millis] ++ send_hid_report REPORT_ID_MOUSE (REPORT_ID_MOUSE % 256) i)

/-! ## Runs of the debounced reader and of the toggle controller -/

/-- Values returned by consecutive calls of `read_debounced_button`, first call first. -/
def button_reads : State → List ButtonIn → List Nat
  | _, [] => []
  | s, i :: rest => (read_debounced_button s i).2.1 :: button_reads (read_debounced_button s i).1 rest

/-- State after consecutive calls of `button_task`. -/
def run_button_task : State → List ButtonIn → State
  | s, [] => s
  | s, i :: rest => run_button_task (button_task s i).1 rest

/-- Every call of the run gets a non-zero debounced reading. -/
def all_pressed : State → List ButtonIn → Bool
  | _, [] => true
  | s, i :: rest =>
    decide ((read_debounced_button s i).2.1 ≠ 0) && all_pressed (button_task s i).1 rest

/-- The values written to the LED by the calls of a trace, in order. -/
def led_writes : List Ext → List Bool
  | [] => []
  | Ext.board_led_write b :: rest => b :: led_writes rest
  | _ :: rest => led_writes rest

/-- The button read once per millisecond at times `0, 1, ..., n - 1`, raw level 1 every time,
both clock reads of a call returning the same value. -/
def held_true (n : Nat) : List ButtonIn :=
  (List.range n).map (fun k => { raw := 1, t1 := k, t2 := k })

/-! ## Runs of the scheduler -/

/-- The 10 ms gate of `hid_task` (line 157) passes: the call does not return there. -/
def wake_fires (s : State) (i : HidIn) : Bool :=
  decide (¬ sub32 i.now1 s.wake_start_ms < 10)

/-- The 5000 ms gate of `hid_task` (line 173) is reached and passes. -/
def mouse_fires (s : State) (i : HidIn) : Bool :=
  wake_fires s i && decide (¬ sub32 i.now2 s.mouse_start_ms < 5000)

/-- The trace entry is a `tud_hid_mouse_report` call. -/
def is_report : Ext → Bool
  | Ext.tud_hid_mouse_report _ _ _ _ _ _ => true
  | _ => false

/-- The mouse reports handed to the stack by the calls of a trace. -/
def reports (tr : List Ext) : List Ext := tr.filter is_report

/-- State after consecutive calls of `hid_task`. -/
def run_hid (REPORT_ID_MOUSE : Nat) : State → List HidIn → State
  | s, [] => s
  | s, i :: rest => run_hid REPORT_ID_MOUSE (hid_task REPORT_ID_MOUSE s i).1 rest

/-- Traces of consecutive calls of `hid_task`, first call first. -/
def hid_traces (REPORT_ID_MOUSE : Nat) : State → List HidIn → List (List Ext)
  | _, [] => []
  | s, i :: rest =>
    (hid_task REPORT_ID_MOUSE s i).2 :: hid_traces REPORT_ID_MOUSE (hid_task REPORT_ID_MOUSE s i).1 rest

/-- The clock reads of a run of `hid_task` calls never decrease, starting from `prev`, and stay
below `2 ^ 32`.  A call that returns on line 158 does not read `now2`; any value between the
neighbouring reads stands for it. -/
def clock_ok : Nat → List HidIn → Bool
  | _, [] => true
  | prev, i :: rest =>
    decide (prev ≤ i.now1) && decide (i.now1 ≤ i.now2) && decide (i.now2 < 4294967296)
      && clock_ok i.now2 rest

/-- Number of calls of a run in which the 10 ms gate passes on a clock value of at most `t`. -/
def wake_count_upto (REPORT_ID_MOUSE t : Nat) : State → List HidIn → Nat
  | _, [] => 0
  | s, i :: rest =>
    (if wake_fires s i && decide (i.now1 ≤ t) then 1 else 0)
      + wake_count_upto REPORT_ID_MOUSE t (hid_task REPORT_ID_MOUSE s i).1 rest

/-- Number of calls of a run in which the 5000 ms gate passes on a clock value of at most `t`. -/
def mouse_count_upto (REPORT_ID_MOUSE t : Nat) : State → List HidIn → Nat
  | _, [] => 0
  | s, i :: rest =>
    (if mouse_fires s i && decide (i.now2 ≤ t) then 1 else 0)
      + mouse_count_upto REPORT_ID_MOUSE t (hid_task REPORT_ID_MOUSE s i).1 rest

/-- For every call of a run in which the 10 ms gate passes: the value of `wake_start_ms` the
gate was tested against and the clock value it read. -/
def wake_fire_log (REPORT_ID_MOUSE : Nat) : State → List HidIn → List (Nat × Nat)
  | _, [] => []
  | s, i :: rest =>
    if wake_fires s i then
      (s.wake_start_ms, i.now1) :: wake_fire_log REPORT_ID_MOUSE (hid_task REPORT_ID_MOUSE s i).1 rest
    else wake_fire_log REPORT_ID_MOUSE (hid_task REPORT_ID_MOUSE s i).1 rest

/-- For every call of a run in which the 5000 ms gate passes: the value of `mouse_start_ms` the
gate was tested against and the clock value it read. -/
def mouse_fire_log (REPORT_ID_MOUSE : Nat) : State → List HidIn → List (Nat × Nat)
  | _, [] => []
  | s, i :: rest =>
    if mouse_fires s i then
      (s.mouse_start_ms, i.now2) :: mouse_fire_log REPORT_ID_MOUSE (hid_task REPORT_ID_MOUSE s i).1 rest
    else mouse_fire_log REPORT_ID_MOUSE (hid_task REPORT_ID_MOUSE s i).1 rest

/-- Number of mouse reports emitted over a run. -/
def report_count (REPORT_ID_MOUSE : Nat) : State → List HidIn → Nat
  | _, [] => 0
  | s, i :: rest =>
    (reports (hid_task REPORT_ID_MOUSE s i).2).length
      + report_count REPORT_ID_MOUSE (hid_task REPORT_ID_MOUSE s i).1 rest

/-- Number of calls of a run in which the 5000 ms gate passes. -/
def mouse_count (REPORT_ID_MOUSE : Nat) : State → List HidIn → Nat
  | _, [] => 0
  | s, i :: rest =>
    (if mouse_fires s i then 1 else 0)
      + mouse_count REPORT_ID_MOUSE (hid_task REPORT_ID_MOUSE s i).1 rest

/-- The state with the global `enabled` overwritten, everything else kept. -/
def with_enabled (s : State) (b : Bool) : State :=
  { enabled := b, last_button_state := s.last_button_state,
    last_debounce_time := s.last_debounce_time,
    wake_start_ms := s.wake_start_ms, mouse_start_ms := s.mouse_start_ms }

/-- Number of calls of a run in which the 10 ms gate passes. -/
def wake_count (REPORT_ID_MOUSE : Nat) : State → List HidIn → Nat
  | _, [] => 0
  | s, i :: rest =>
    (if wake_fires s i then 1 else 0)
      + wake_count REPORT_ID_MOUSE (hid_task REPORT_ID_MOUSE s i).1 rest

/-- The clock value read at the 10 ms gate moves forward by at most 10 (in 32-bit arithmetic,
so a wrap from `2 ^ 32 - 1` to 0 counts as a step of 1) from each call to the next, starting
from `prev`. -/
def adv_ok : Nat → List HidIn → Bool
  | _, [] => true
  | prev, i :: rest => decide (sub32 i.now1 prev ≤ 10) && adv_ok i.now1 rest

/-- The lag `now - wake_start_ms` (in 32-bit arithmetic) left by each call of a run, measured on
the clock value that call read at the 10 ms gate. -/
def wake_lags (REPORT_ID_MOUSE : Nat) : State → List HidIn → List Nat
  | _, [] => []
  | s, i :: rest =>
    sub32 i.now1 (hid_task REPORT_ID_MOUSE s i).1.wake_start_ms
      :: wake_lags REPORT_ID_MOUSE (hid_task REPORT_ID_MOUSE s i).1 rest

/-- The clock reads of a run of `read_debounced_button` calls never decrease, starting from
`prev`, and stay below `2 ^ 32`.  A call whose raw level equals `last_button_state` does not
read `t1`; any value between the neighbouring reads stands for it. -/
def button_clock_ok : Nat → List ButtonIn → Bool
  | _, [] => true
  | prev, i :: rest =>
    decide (prev ≤ i.t1) && decide (i.t1 ≤ i.t2) && decide (i.t2 < 4294967296)
      && button_clock_ok i.t2 rest

/-- Traces of consecutive calls of `button_task`, first call first. -/
def button_task_traces : State → List ButtonIn → List (List Ext)
  | _, [] => []
  | s, i :: rest => (button_task s i).2 :: button_task_traces (button_task s i).1 rest

/-! ## Stack callbacks -/

/-- Embedding of `tud_mount_cb` (lines 70-72): empty body. -/
def tud_mount_cb (s : State) : State := s

/-- Embedding of `tud_umount_cb` (lines 75-77): empty body. -/
def tud_umount_cb (s : State) : State := s

/-- Embedding of `tud_suspend_cb` (lines 82-85): the argument is discarded. -/
def tud_suspend_cb (s : State) (_remote_wakeup_en : Bool) : State := s

/-- Embedding of `tud_resume_cb` (lines 88-90): empty body. -/
def tud_resume_cb (s : State) : State := s

/-- Embedding of `tud_hid_report_complete_cb` (lines 186-190): the arguments are discarded. -/
def tud_hid_report_complete_cb (s : State) (_itf : Nat) (_report : List Nat) (_len : Nat) :
    State := s

/-- Embedding of `tud_hid_get_report_cb` (lines 195-205): the arguments are discarded and 0 is
returned.  The result is the state, the contents of the buffer after the call and the
returned length. -/
def tud_hid_get_report_cb (s : State) (_itf _report_id _report_type : Nat) (buffer : List Nat)
    (_reqlen : Nat) : State × List Nat × Nat :=
  (s, buffer, 0)

/-- Embedding of `tud_hid_set_report_cb` (lines 209-214): the arguments are discarded. -/
def tud_hid_set_report_cb (s : State) (_itf _report_id _report_type : Nat)
    (_buffer : List Nat) (_bufsize : Nat) : State := s

/-! ## Basic facts -/

theorem sub32_of_le {a b : Nat} (h : b ≤ a) (ha : a < 4294967296) : sub32 a b = a - b := by
  unfold sub32; omega

theorem one_minus_eq_not (b : Bool) : one_minus b = !b := by
  cases b <;> decide

theorem led_writes_append (xs ys : List Ext) :
    led_writes (xs ++ ys) = led_writes xs ++ led_writes ys := by
  induction xs with
  | nil => rfl
  | cons x xs ih => cases x <;> simp [led_writes, ih]

theorem led_writes_reader (s : State) (i : ButtonIn) :
    led_writes (read_debounced_button s i).2.2 = [] := by
  unfold read_debounced_button
  by_cases h : i.raw = s.last_button_state <;> simp [h, led_writes]

theorem reader_ret_eq_state (s : State) (i : ButtonIn) :
    (read_debounced_button s i).2.1 = (read_debounced_button s i).1.last_button_state := rfl

/-- A call whose raw level equals the stored level, or whose two clock reads are at most
50 ms apart, leaves the stored level as it was. -/
theorem reader_keeps (s : State) (i : ButtonIn)
    (h : i.raw = s.last_button_state ∨ (i.t1 ≤ i.t2 ∧ i.t2 < 4294967296 ∧ i.t2 ≤ i.t1 + 50)) :
    (read_debounced_button s i).1.last_button_state = s.last_button_state := by
  unfold read_debounced_button
  by_cases hr : i.raw = s.last_button_state
  · simp [hr]
  · rcases h with h | ⟨h1, h2, h3⟩
    · exact absurd h hr
    · have : sub32 i.t2 i.t1 = i.t2 - i.t1 := sub32_of_le h1 h2
      simp [hr, this]
      omega

theorem button_reads_keep (v : Nat) :
    ∀ (calls : List ButtonIn) (s : State), s.last_button_state = v →
      (∀ i ∈ calls, i.raw = v ∨ (i.t1 ≤ i.t2 ∧ i.t2 < 4294967296 ∧ i.t2 ≤ i.t1 + 50)) →
      ∀ r ∈ button_reads s calls, r = v := by
  intro calls
  induction calls with
  | nil => intro s _ _ r hr; simp [button_reads] at hr
  | cons i rest ih =>
    intro s hs hall r hr
    have hi := hall i (List.mem_cons_self _ _)
    have hk : (read_debounced_button s i).1.last_button_state = v := by
      rw [reader_keeps s i (by rw [hs]; exact hi), hs]
    simp only [button_reads, List.mem_cons] at hr
    rcases hr with hr | hr
    · rw [hr, reader_ret_eq_state, hk]
    · exact ih _ hk (fun j hj => hall j (List.mem_cons_of_mem _ hj)) r hr

/-! ## Scheduler steps -/

theorem hid_task_wake_start (id : Nat) (s : State) (i : HidIn) :
    (hid_task id s i).1.wake_start_ms =
      if wake_fires s i then add32 s.wake_start_ms 10 else s.wake_start_ms := by
  unfold hid_task wake_fires
  by_cases h1 : sub32 i.now1 s.wake_start_ms < 10
  · simp [h1]
  · by_cases h2 : sub32 i.now2 s.mouse_start_ms < 5000
    · simp [h1, h2]
    · cases he : s.enabled <;> simp [h1, h2, he]

theorem hid_task_mouse_start (id : Nat) (s : State) (i : HidIn) :
    (hid_task id s i).1.mouse_start_ms =
      if mouse_fires s i then add32 s.mouse_start_ms 5000 else s.mouse_start_ms := by
  unfold hid_task mouse_fires wake_fires
  by_cases h1 : sub32 i.now1 s.wake_start_ms < 10
  · simp [h1]
  · by_cases h2 : sub32 i.now2 s.mouse_start_ms < 5000
    · simp [h1, h2]
    · cases he : s.enabled <;> simp [h1, h2, he]

theorem hid_task_frame (id : Nat) (s : State) (i : HidIn) :
    (hid_task id s i).1.enabled = s.enabled ∧
    (hid_task id s i).1.last_button_state = s.last_button_state ∧
    (hid_task id s i).1.last_debounce_time = s.last_debounce_time := by
  unfold hid_task
  by_cases h1 : sub32 i.now1 s.wake_start_ms < 10
  · simp [h1]
  · by_cases h2 : sub32 i.now2 s.mouse_start_ms < 5000
    · simp [h1, h2]
    · cases he : s.enabled <;> simp [h1, h2, he]

/-- The trace of one call of `hid_task`, by gate. -/
theorem hid_task_trace (id : Nat) (s : State) (i : HidIn) :
    (hid_task id s i).2 =
      if wake_fires s i then
        (if i.suspended then [Ext.board_millis, Ext.tud_suspended, Ext.tud_remote_wakeup]
          else [Ext.board_millis, Ext.tud_suspended]) ++ [Ext.board_millis] ++
        (if mouse_fires s i && s.enabled then send_hid_report id (id % 256) i else [])
      else [Ext.board_millis] := by
  unfold hid_task mouse_fires wake_fires
  by_cases h1 : sub32 i.now1 s.wake_start_ms < 10
  · simp [h1]
  · by_cases h2 : sub32 i.now2 s.mouse_start_ms < 5000
    · simp [h1, h2]
    · cases he : s.enabled <;> simp [h1, h2, he]

theorem mouse_fires_wake {s : State} {i : HidIn} (h : mouse_fires s i = true) :
    wake_fires s i = true := by
  unfold mouse_fires at h
  simp only [Bool.and_eq_true] at h
  exact h.1

/-- The trace of `send_hid_report` called with the mouse report id. -/
theorem send_hid_report_trace (id : Nat) (i : HidIn) :
    send_hid_report id (id % 256) i =
      if i.hid_ready && decide (id < 256) then
        [Ext.tud_hid_ready, Ext.get_rand_32,
         Ext.tud_hid_mouse_report id 0 (toInt8 (i.r32 % 256)) (toInt8 (i.r32 / 256 % 256)) 0 0]
      else [Ext.tud_hid_ready] := by
  have hx : i.r32 &&& 0xFF = i.r32 % 256 := Nat.and_pow_two_sub_one_eq_mod i.r32 8
  have hy : (i.r32 >>> 8) &&& 0xFF = i.r32 / 256 % 256 := by
    rw [show (i.r32 >>> 8) &&& 0xFF = (i.r32 >>> 8) % 256 from
      Nat.and_pow_two_sub_one_eq_mod (i.r32 >>> 8) 8, Nat.shiftRight_eq_div_pow]
  unfold send_hid_report
  cases hr : i.hid_ready
  · simp
  · by_cases hid : id < 256
    · have : id % 256 = id := Nat.mod_eq_of_lt hid
      simp [hid, this, hx, hy]
    · have : id % 256 ≠ id := by omega
      simp [hid, this]

theorem hid_task_with_enabled (id : Nat) (s : State) (b : Bool) (i : HidIn) :
    (hid_task id (with_enabled s b) i).1 = with_enabled (hid_task id s i).1 b := by
  unfold hid_task with_enabled
  by_cases h1 : sub32 i.now1 s.wake_start_ms < 10
  · simp [h1]
  · by_cases h2 : sub32 i.now2 s.mouse_start_ms < 5000
    · simp [h1, h2]
    · cases he : s.enabled <;> cases b <;> simp [h1, h2, he]

theorem run_hid_with_enabled (id : Nat) (b : Bool) :
    ∀ (calls : List HidIn) (s : State),
      run_hid id (with_enabled s b) calls = with_enabled (run_hid id s calls) b := by
  intro calls
  induction calls with
  | nil => intro s; rfl
  | cons i rest ih => intro s; simp only [run_hid, hid_task_with_enabled, ih]

theorem reports_send_length (id : Nat) (i : HidIn) :
    (reports (send_hid_report id (id % 256) i)).length ≤ 1 := by
  rw [send_hid_report_trace]
  by_cases h : (i.hid_ready && decide (id < 256)) = true
  · simp [h, reports, is_report]
  · simp [h, reports, is_report]

/-- One call emits at most one report, and emits one only when the 5000 ms gate passes with
`enabled` set and the stack ready. -/
theorem hid_task_reports (id : Nat) (s : State) (i : HidIn) :
    (reports (hid_task id s i).2).length ≤ 1 ∧
    (reports (hid_task id s i).2 ≠ [] →
      mouse_fires s i = true ∧ s.enabled = true ∧ i.hid_ready = true) := by
  rw [hid_task_trace]
  cases hw : wake_fires s i
  · simp [reports, is_report]
  · cases hm : mouse_fires s i
    · cases i.suspended <;> simp [reports, is_report]
    · cases he : s.enabled
      · cases i.suspended <;> simp [reports, is_report]
      · have hlen := reports_send_length id i
        have hnil : i.hid_ready = false → reports (send_hid_report id (id % 256) i) = [] := by
          intro hr; rw [send_hid_report_trace]; simp [hr, reports, is_report]
        cases hr : i.hid_ready
        · have := hnil hr
          unfold reports at this hlen ⊢
          cases i.suspended <;> simp [is_report, this]
        · unfold reports at hlen ⊢
          cases i.suspended <;> simp [is_report] <;> exact hlen

/-! ## Debounced button reader: claims C1 to C3 -/

/-- C1 (evaluation of the code at the scenario of the claim): the raw button reads 1 on each of
61 calls made at 0, 1, ..., 60 ms from the initial state, and `read_debounced_button` returns 0
on every one of them, the calls made after more than 50 ms included: the raw level differs from
`last_button_state` in each call, so each call moves `last_debounce_time` to the current time
before testing it. -/
theorem held_60ms_reads_zero :
    button_reads State.init (held_true 61) = List.replicate 61 0 := by
  decide

/-- C2 (counterexample): four calls from the initial state on a non-decreasing clock read the
raw levels 0, 1, 0, 0. Level 1 is read on the second call only, whose two clock reads are 100
and 151, between a read of 0 at 100 ms and a read of 0 at 152 ms. The returned value changes
from 0 to 1 on that call, so it changes to a level that was read once and not read unchanged
over more than 50 ms, and it stays 1 afterwards. -/
theorem single_slow_call_promotes_level :
    button_clock_ok 0 [⟨0, 100, 100⟩, ⟨1, 100, 151⟩, ⟨0, 152, 152⟩, ⟨0, 153, 153⟩] = true ∧
    List.map (fun i => i.raw)
        [(⟨0, 100, 100⟩ : ButtonIn), ⟨1, 100, 151⟩, ⟨0, 152, 152⟩, ⟨0, 153, 153⟩]
      = [0, 1, 0, 0] ∧
    button_reads State.init [⟨0, 100, 100⟩, ⟨1, 100, 151⟩, ⟨0, 152, 152⟩, ⟨0, 153, 153⟩]
      = [0, 1, 1, 1] := by
  decide

/-- C2 (amended): with a non-decreasing clock, the value returned by `read_debounced_button`
differs from the value returned by the previous call only in a call whose raw reading is the
new value, differs from the previously returned value, and is tested by a clock read more than
50 ms past the change epoch; in such a call the epoch is the first clock read of the call
itself, so the span lies between the two clock reads of one call and the level need not have
been read on any other call. When every call that sees a level different from the stable one
has its clock reads in one window shorter than 50 ms, with calls that read the stable level
before and after, every call returns the stable value. -/
theorem debounce_changes_only_after_settle :
    (∀ (s : State) (i1 i2 : ButtonIn), i2.t1 ≤ i2.t2 → i2.t2 < 4294967296 →
      (read_debounced_button (read_debounced_button s i1).1 i2).2.1
          ≠ (read_debounced_button s i1).2.1 →
      (read_debounced_button (read_debounced_button s i1).1 i2).2.1 = i2.raw ∧
        i2.raw ≠ (read_debounced_button s i1).2.1 ∧
        (read_debounced_button (read_debounced_button s i1).1 i2).1.last_debounce_time + 50
          < i2.t2 ∧
        (read_debounced_button (read_debounced_button s i1).1 i2).1.last_debounce_time
          = i2.t1) ∧
    (∀ (s : State) (pre bounce post : List ButtonIn),
      (∀ i ∈ pre, i.raw = s.last_button_state) →
      (∀ i ∈ post, i.raw = s.last_button_state) →
      (∀ i ∈ bounce, i.t1 ≤ i.t2 ∧ i.t2 < 4294967296) →
      (∀ i ∈ bounce, ∀ j ∈ bounce, j.t2 < i.t1 + 50) →
      ∀ r ∈ button_reads s (pre ++ bounce ++ post), r = s.last_button_state) := by
  refine ⟨?_, ?_⟩
  · intro s i1 i2 h1 h2 hne
    rw [reader_ret_eq_state s i1] at hne ⊢
    generalize (read_debounced_button s i1).1 = s1 at hne ⊢
    have hsub : sub32 i2.t2 i2.t1 = i2.t2 - i2.t1 := sub32_of_le h1 h2
    by_cases hr : i2.raw = s1.last_button_state
    · exfalso
      apply hne
      rw [reader_ret_eq_state]
      exact reader_keeps s1 i2 (Or.inl hr)
    · have hepoch : (read_debounced_button s1 i2).1.last_debounce_time = i2.t1 := by
        unfold read_debounced_button
        simp [hr]
      by_cases h50 : i2.t2 - i2.t1 > 50
      · have hret : (read_debounced_button s1 i2).2.1 = i2.raw := by
          unfold read_debounced_button
          simp [hr, hsub, h50]
        exact ⟨hret, hr, by rw [hepoch]; omega, hepoch⟩
      · exfalso
        apply hne
        rw [reader_ret_eq_state]
        exact reader_keeps s1 i2 (Or.inr ⟨h1, h2, by omega⟩)
  · intro s pre bounce post hpre hpost hb hspan
    apply button_reads_keep s.last_button_state _ s rfl
    intro i hi
    simp only [List.mem_append] at hi
    rcases hi with (hi | hi) | hi
    · exact Or.inl (hpre i hi)
    · have := hspan i hi i hi
      exact Or.inr ⟨(hb i hi).1, (hb i hi).2, by omega⟩
    · exact Or.inl (hpost i hi)

/-- Witness for C2 (amended): from the initial state a call reading raw 0 at 100 ms and a call
reading raw 1 whose clock reads are 100 and 151 return different values, 0 and 1, and the
epoch of the second call is 100; and a 10 ms bounce between calls that read the stable level 0
leaves every returned value at 0. -/
theorem debounce_changes_only_after_settle_witness :
    ((read_debounced_button (read_debounced_button State.init ⟨0, 100, 100⟩).1
        ⟨1, 100, 151⟩).2.1 = 1 ∧
      1 ≠ (read_debounced_button State.init ⟨0, 100, 100⟩).2.1 ∧
      (read_debounced_button (read_debounced_button State.init ⟨0, 100, 100⟩).1
        ⟨1, 100, 151⟩).1.last_debounce_time + 50 < 151 ∧
      (read_debounced_button (read_debounced_button State.init ⟨0, 100, 100⟩).1
        ⟨1, 100, 151⟩).1.last_debounce_time = 100) ∧
    (∀ r ∈ button_reads State.init
        ([⟨0, 0, 0⟩, ⟨0, 1, 1⟩] ++ [⟨1, 2, 2⟩, ⟨1, 7, 8⟩, ⟨1, 12, 12⟩] ++ [⟨0, 13, 13⟩]),
      r = 0) :=
  ⟨debounce_changes_only_after_settle.1 State.init ⟨0, 100, 100⟩ ⟨1, 100, 151⟩
      (by decide) (by decide) (by decide),
   debounce_changes_only_after_settle.2 State.init
      [⟨0, 0, 0⟩, ⟨0, 1, 1⟩] [⟨1, 2, 2⟩, ⟨1, 7, 8⟩, ⟨1, 12, 12⟩] [⟨0, 13, 13⟩]
      (by decide) (by decide) (by decide) (by decide)⟩

/-- C3 (counterexample): from the initial state a call reads raw 1 with clock reads 100 and 150;
the time since the change epoch is exactly 50 and the raw level is not promoted. -/
theorem tie_at_50_is_not_promoted :
    sub32 150 (read_debounced_button State.init ⟨1, 100, 150⟩).1.last_debounce_time = 50 ∧
    (read_debounced_button State.init ⟨1, 100, 150⟩).1.last_button_state ≠ 1 := by
  decide

/-- C3 (amended): the comparison with the 50 ms debounce delay is strict. With the elapsed time
taken in 32-bit arithmetic between the second clock read and the change epoch of the call, the
raw level is promoted when the elapsed time is 51 or more, and the stable level is left as it
was when the elapsed time is 50 or less. -/
theorem promote_iff_elapsed_gt_50 (s : State) (i : ButtonIn) :
    (50 < sub32 i.t2 (read_debounced_button s i).1.last_debounce_time →
      (read_debounced_button s i).1.last_button_state = i.raw ∧
      (read_debounced_button s i).2.1 = i.raw) ∧
    (sub32 i.t2 (read_debounced_button s i).1.last_debounce_time ≤ 50 →
      (read_debounced_button s i).1.last_button_state = s.last_button_state ∧
      (read_debounced_button s i).2.1 = s.last_button_state) := by
  unfold read_debounced_button
  by_cases hr : i.raw = s.last_button_state
  · simp [hr]
  · simp only [ne_eq, hr, not_false_eq_true, decide_True, if_true]
    by_cases h50 : 50 < sub32 i.t2 i.t1
    · simp [h50]
    · simp [h50]

/-- Witness for C3 (amended): elapsed time 51 promotes raw 1, elapsed time 50 keeps stable 0. -/
theorem promote_iff_elapsed_gt_50_witness :
    ((read_debounced_button State.init ⟨1, 100, 151⟩).1.last_button_state = 1 ∧
      (read_debounced_button State.init ⟨1, 100, 151⟩).2.1 = 1) ∧
    ((read_debounced_button State.init ⟨1, 100, 150⟩).1.last_button_state = 0 ∧
      (read_debounced_button State.init ⟨1, 100, 150⟩).2.1 = 0) :=
  ⟨(promote_iff_elapsed_gt_50 State.init ⟨1, 100, 151⟩).1 (by decide),
   (promote_iff_elapsed_gt_50 State.init ⟨1, 100, 150⟩).2 (by decide)⟩

/-! ## Toggle controller: claim C4 -/

/-- C4: one call of `button_task` flips `enabled` and writes the new value to the LED (once)
when the debounced reading is non-zero, and leaves `enabled` alone and writes nothing to the LED
when the reading is zero; over a run of calls that all get a non-zero reading, `enabled` ends
at its initial value when the number of calls is even and at the negation when it is odd. -/
theorem button_task_flips_iff_pressed :
    (∀ (s : State) (i : ButtonIn), (read_debounced_button s i).2.1 ≠ 0 →
      (button_task s i).1.enabled = (!s.enabled) ∧
      led_writes (button_task s i).2 = [!s.enabled]) ∧
    (∀ (s : State) (i : ButtonIn), (read_debounced_button s i).2.1 = 0 →
      (button_task s i).1.enabled = s.enabled ∧
      led_writes (button_task s i).2 = []) ∧
    (∀ (calls : List ButtonIn) (s : State), all_pressed s calls = true →
      (run_button_task s calls).enabled =
        if calls.length % 2 = 0 then s.enabled else !s.enabled) := by
  have hflip : ∀ (s : State) (i : ButtonIn), (read_debounced_button s i).2.1 ≠ 0 →
      (button_task s i).1.enabled = (!s.enabled) ∧
      led_writes (button_task s i).2 = [!s.enabled] := by
    intro s i h
    have he : (read_debounced_button s i).1.enabled = s.enabled := rfl
    unfold button_task
    simp only [h, ne_eq, not_false_eq_true, if_true, led_writes_append, led_writes_reader,
      one_minus_eq_not, he]
    exact ⟨trivial, rfl⟩
  refine ⟨hflip, ?_, ?_⟩
  · intro s i h
    unfold button_task
    simp only [h, ne_eq, not_true_eq_false, if_false, led_writes_reader]
    exact ⟨rfl, trivial⟩
  · intro calls
    induction calls with
    | nil => intro s _; simp [run_button_task]
    | cons i rest ih =>
      intro s h
      simp only [all_pressed, Bool.and_eq_true, decide_eq_true_eq] at h
      have h1 := (hflip s i h.1).1
      simp only [run_button_task, ih _ h.2, h1, List.length_cons]
      cases s.enabled <;> rcases Nat.mod_two_eq_zero_or_one rest.length with h2 | h2 <;>
        simp [h2, Nat.succ_mod_two_eq_zero_iff, Nat.succ_mod_two_eq_one_iff]

/-- Witness for C4: a call that promotes raw 1 (reading non-zero) flips `enabled` from true to
false and writes false to the LED; a call reading 0 changes nothing; three pressed calls in a
row from the initial state end with `enabled` negated. -/
theorem button_task_flips_iff_pressed_witness :
    ((button_task State.init ⟨1, 0, 51⟩).1.enabled = (!State.init.enabled) ∧
      led_writes (button_task State.init ⟨1, 0, 51⟩).2 = [!State.init.enabled]) ∧
    ((button_task State.init ⟨1, 0, 0⟩).1.enabled = State.init.enabled ∧
      led_writes (button_task State.init ⟨1, 0, 0⟩).2 = []) ∧
    (run_button_task State.init [⟨1, 0, 51⟩, ⟨1, 52, 52⟩, ⟨1, 53, 53⟩]).enabled =
      (if [(⟨1, 0, 51⟩ : ButtonIn), ⟨1, 52, 52⟩, ⟨1, 53, 53⟩].length % 2 = 0
        then State.init.enabled else !State.init.enabled) :=
  ⟨button_task_flips_iff_pressed.1 State.init ⟨1, 0, 51⟩ (by decide),
   button_task_flips_iff_pressed.2.1 State.init ⟨1, 0, 0⟩ (by decide),
   button_task_flips_iff_pressed.2.2 [⟨1, 0, 51⟩, ⟨1, 52, 52⟩, ⟨1, 53, 53⟩] State.init
     (by decide)⟩

/-! ## Scheduler rate: claims C5 and C6 -/

/-- When the 10 ms gate passes on a clock value that has not wrapped past the deadline, the
advanced deadline is `wake_start_ms + 10` without wrap and is still at most the clock value. -/
theorem wake_fires_bound {s : State} {i : HidIn} (h : wake_fires s i = true)
    (hle : s.wake_start_ms ≤ i.now1) (hlt : i.now1 < 4294967296) :
    add32 s.wake_start_ms 10 = s.wake_start_ms + 10 ∧ s.wake_start_ms + 10 ≤ i.now1 := by
  unfold wake_fires sub32 at h
  unfold add32
  simp only [decide_eq_true_eq] at h
  omega

theorem mouse_fires_bound {s : State} {i : HidIn} (h : mouse_fires s i = true)
    (hle : s.mouse_start_ms ≤ i.now2) (hlt : i.now2 < 4294967296) :
    add32 s.mouse_start_ms 5000 = s.mouse_start_ms + 5000 ∧
      s.mouse_start_ms + 5000 ≤ i.now2 := by
  unfold mouse_fires sub32 at h
  unfold add32
  simp only [Bool.and_eq_true, decide_eq_true_eq] at h
  omega

/-- One step keeps both deadlines at or below the last clock value read. -/
theorem hid_task_deadlines_le (id : Nat) (s : State) (i : HidIn) (prev : Nat)
    (hw : s.wake_start_ms ≤ prev) (hm : s.mouse_start_ms ≤ prev)
    (h1 : prev ≤ i.now1) (h2 : i.now1 ≤ i.now2) (h3 : i.now2 < 4294967296) :
    (hid_task id s i).1.wake_start_ms ≤ i.now2 ∧ (hid_task id s i).1.mouse_start_ms ≤ i.now2 := by
  rw [hid_task_wake_start, hid_task_mouse_start]
  constructor
  · cases hf : wake_fires s i
    · simp; omega
    · have := wake_fires_bound hf (by omega) (by omega)
      simp; omega
  · cases hf : mouse_fires s i
    · simp; omega
    · have := mouse_fires_bound hf (by omega) h3
      simp; omega

theorem counts_upto_bounded (id t : Nat) :
    ∀ (calls : List HidIn) (s : State) (prev : Nat),
      s.wake_start_ms ≤ prev → s.mouse_start_ms ≤ prev → clock_ok prev calls = true →
      10 * wake_count_upto id t s calls ≤ t - s.wake_start_ms ∧
      5000 * mouse_count_upto id t s calls ≤ t - s.mouse_start_ms := by
  intro calls
  induction calls with
  | nil => intro s prev _ _ _; simp [wake_count_upto, mouse_count_upto]
  | cons i rest ih =>
    intro s prev hw hm hc
    simp only [clock_ok, Bool.and_eq_true, decide_eq_true_eq] at hc
    obtain ⟨⟨⟨h1, h2⟩, h3⟩, hrest⟩ := hc
    have hle := hid_task_deadlines_le id s i prev hw hm h1 h2 h3
    have hih := ih (hid_task id s i).1 i.now2 hle.1 hle.2 hrest
    rw [hid_task_wake_start, hid_task_mouse_start] at hih
    simp only [wake_count_upto, mouse_count_upto]
    constructor
    · cases hf : wake_fires s i
      · simp [hf] at hih ⊢; omega
      · have hb := wake_fires_bound hf (by omega) (by omega)
        simp only [hf, if_true, hb.1] at hih
        by_cases ht : i.now1 ≤ t
        · simp [ht]; omega
        · simp [ht]; omega
    · cases hf : mouse_fires s i
      · simp [hf] at hih ⊢; omega
      · have hb := mouse_fires_bound hf (by omega) h3
        simp only [hf, if_true, hb.1] at hih
        by_cases ht : i.now2 ≤ t
        · simp [ht]; omega
        · simp [ht]; omega

/-- C5: over any run of `hid_task` calls from the initial state with a non-decreasing clock
below `2 ^ 32`, and for every time `t`, at most `t / 10` calls pass the 10 ms gate on a clock
value of at most `t`, and at most `t / 5000` calls pass the 5000 ms gate on a clock value of at
most `t`, whatever the number of calls. -/
theorem gate_passes_bounded_by_elapsed (id : Nat) (calls : List HidIn) (t : Nat)
    (hclock : clock_ok 0 calls = true) :
    wake_count_upto id t State.init calls ≤ t / 10 ∧
    mouse_count_upto id t State.init calls ≤ t / 5000 := by
  have h := counts_upto_bounded id t calls State.init 0 (Nat.le_refl _) (Nat.le_refl _) hclock
  have hw0 : State.init.wake_start_ms = 0 := rfl
  have hm0 : State.init.mouse_start_ms = 0 := rfl
  rw [hw0, hm0] at h
  simp only [Nat.sub_zero] at h
  constructor
  · rw [Nat.le_div_iff_mul_le (by decide)]; omega
  · rw [Nat.le_div_iff_mul_le (by decide)]; omega

/-- Witness for C5: four calls at 5, 10, 10 and 5000 ms. -/
theorem gate_passes_bounded_by_elapsed_witness :
    wake_count_upto 2 5000 State.init
        [⟨5, 5, false, true, 0⟩, ⟨10, 10, false, true, 0⟩, ⟨10, 10, false, true, 0⟩,
         ⟨5000, 5000, false, true, 0⟩] ≤ 5000 / 10 ∧
    mouse_count_upto 2 5000 State.init
        [⟨5, 5, false, true, 0⟩, ⟨10, 10, false, true, 0⟩, ⟨10, 10, false, true, 0⟩,
         ⟨5000, 5000, false, true, 0⟩] ≤ 5000 / 5000 :=
  gate_passes_bounded_by_elapsed 2
    [⟨5, 5, false, true, 0⟩, ⟨10, 10, false, true, 0⟩, ⟨10, 10, false, true, 0⟩,
     ⟨5000, 5000, false, true, 0⟩] 5000 (by decide)

theorem wake_fire_log_spaced (id : Nat) :
    ∀ (calls : List HidIn) (s : State) (prev : Nat),
      s.wake_start_ms ≤ prev → s.mouse_start_ms ≤ prev → clock_ok prev calls = true →
      (∀ b ∈ wake_fire_log id s calls, s.wake_start_ms ≤ b.1 ∧ b.1 + 10 ≤ b.2) ∧
      List.Pairwise (fun a b => a.1 + 10 ≤ b.1 ∧ a.1 + 20 ≤ b.2) (wake_fire_log id s calls) := by
  intro calls
  induction calls with
  | nil => intro s prev _ _ _; simp [wake_fire_log]
  | cons i rest ih =>
    intro s prev hw hm hc
    simp only [clock_ok, Bool.and_eq_true, decide_eq_true_eq] at hc
    obtain ⟨⟨⟨h1, h2⟩, h3⟩, hrest⟩ := hc
    have hle := hid_task_deadlines_le id s i prev hw hm h1 h2 h3
    have hih := ih (hid_task id s i).1 i.now2 hle.1 hle.2 hrest
    rw [hid_task_wake_start] at hih
    cases hf : wake_fires s i
    · simp only [hf, Bool.false_eq_true, if_false] at hih
      simpa [wake_fire_log, hf] using hih
    · have hb := wake_fires_bound hf (by omega) (by omega)
      simp only [hf, if_true, hb.1] at hih
      simp only [wake_fire_log, hf, if_true, List.mem_cons, List.pairwise_cons]
      refine ⟨?_, ?_, hih.2⟩
      · intro b hbm
        rcases hbm with hbm | hbm
        · subst hbm; exact ⟨Nat.le_refl _, hb.2⟩
        · have := hih.1 b hbm; omega
      · intro b hbm
        have := hih.1 b hbm; omega

theorem mouse_fire_log_spaced (id : Nat) :
    ∀ (calls : List HidIn) (s : State) (prev : Nat),
      s.wake_start_ms ≤ prev → s.mouse_start_ms ≤ prev → clock_ok prev calls = true →
      (∀ b ∈ mouse_fire_log id s calls, s.mouse_start_ms ≤ b.1 ∧ b.1 + 5000 ≤ b.2) ∧
      List.Pairwise (fun a b => a.1 + 5000 ≤ b.1 ∧ a.1 + 10000 ≤ b.2)
        (mouse_fire_log id s calls) := by
  intro calls
  induction calls with
  | nil => intro s prev _ _ _; simp [mouse_fire_log]
  | cons i rest ih =>
    intro s prev hw hm hc
    simp only [clock_ok, Bool.and_eq_true, decide_eq_true_eq] at hc
    obtain ⟨⟨⟨h1, h2⟩, h3⟩, hrest⟩ := hc
    have hle := hid_task_deadlines_le id s i prev hw hm h1 h2 h3
    have hih := ih (hid_task id s i).1 i.now2 hle.1 hle.2 hrest
    rw [hid_task_mouse_start] at hih
    cases hf : mouse_fires s i
    · simp only [hf, Bool.false_eq_true, if_false] at hih
      simpa [mouse_fire_log, hf] using hih
    · have hb := mouse_fires_bound hf (by omega) h3
      simp only [hf, if_true, hb.1] at hih
      simp only [mouse_fire_log, hf, if_true, List.mem_cons, List.pairwise_cons]
      refine ⟨?_, ?_, hih.2⟩
      · intro b hbm
        rcases hbm with hbm | hbm
        · subst hbm; exact ⟨Nat.le_refl _, hb.2⟩
        · have := hih.1 b hbm; omega
      · intro b hbm
        have := hih.1 b hbm; omega

/-- C6 (counterexample): two calls from the initial state at 9999 ms and 10000 ms (a
non-decreasing clock). Both gates pass in both calls, so the two calls in which the wake-check
branch fires read clock values 1 ms apart, and so do the two calls in which the mouse-report
branch fires. -/
theorem firing_calls_one_ms_apart :
    clock_ok 0 [⟨9999, 9999, false, true, 0⟩, ⟨10000, 10000, false, true, 0⟩] = true ∧
    wake_fire_log 2 State.init [⟨9999, 9999, false, true, 0⟩, ⟨10000, 10000, false, true, 0⟩]
      = [(0, 9999), (10, 10000)] ∧
    mouse_fire_log 2 State.init [⟨9999, 9999, false, true, 0⟩, ⟨10000, 10000, false, true, 0⟩]
      = [(0, 9999), (5000, 10000)] ∧
    ¬ List.Pairwise (fun a b => a.2 + 10 ≤ b.2)
        (wake_fire_log 2 State.init
          [⟨9999, 9999, false, true, 0⟩, ⟨10000, 10000, false, true, 0⟩]) ∧
    ¬ List.Pairwise (fun a b => a.2 + 5000 ≤ b.2)
        (mouse_fire_log 2 State.init
          [⟨9999, 9999, false, true, 0⟩, ⟨10000, 10000, false, true, 0⟩]) := by
  decide

/-- C6 (amended): over any run of `hid_task` calls from the initial state with a non-decreasing
clock below `2 ^ 32`, every call in which the wake-check branch fires reads a clock value at
least 10 past the `wake_start_ms` it was gated on, and of two such calls the later one was
gated on a `wake_start_ms` at least 10 larger and reads a clock value at least 20 past the
`wake_start_ms` of the earlier one; the same holds for the mouse-report branch and
`mouse_start_ms` with 5000 and 10000. The clock values of two firing calls may be closer than
the interval when the earlier call fired late. -/
theorem firing_calls_spaced_by_deadline (id : Nat) (calls : List HidIn)
    (hclock : clock_ok 0 calls = true) :
    (∀ b ∈ wake_fire_log id State.init calls, b.1 + 10 ≤ b.2) ∧
    List.Pairwise (fun a b => a.1 + 10 ≤ b.1 ∧ a.1 + 20 ≤ b.2)
      (wake_fire_log id State.init calls) ∧
    (∀ b ∈ mouse_fire_log id State.init calls, b.1 + 5000 ≤ b.2) ∧
    List.Pairwise (fun a b => a.1 + 5000 ≤ b.1 ∧ a.1 + 10000 ≤ b.2)
      (mouse_fire_log id State.init calls) := by
  have hw := wake_fire_log_spaced id calls State.init 0 (Nat.le_refl _) (Nat.le_refl _) hclock
  have hm := mouse_fire_log_spaced id calls State.init 0 (Nat.le_refl _) (Nat.le_refl _) hclock
  exact ⟨fun b hb => (hw.1 b hb).2, hw.2, fun b hb => (hm.1 b hb).2, hm.2⟩

/-- Witness for C6 (amended): the run of the counterexample. -/
theorem firing_calls_spaced_by_deadline_witness :
    (∀ b ∈ wake_fire_log 2 State.init
        [⟨9999, 9999, false, true, 0⟩, ⟨10000, 10000, false, true, 0⟩], b.1 + 10 ≤ b.2) ∧
    List.Pairwise (fun a b => a.1 + 10 ≤ b.1 ∧ a.1 + 20 ≤ b.2)
      (wake_fire_log 2 State.init
        [⟨9999, 9999, false, true, 0⟩, ⟨10000, 10000, false, true, 0⟩]) ∧
    (∀ b ∈ mouse_fire_log 2 State.init
        [⟨9999, 9999, false, true, 0⟩, ⟨10000, 10000, false, true, 0⟩], b.1 + 5000 ≤ b.2) ∧
    List.Pairwise (fun a b => a.1 + 5000 ≤ b.1 ∧ a.1 + 10000 ≤ b.2)
      (mouse_fire_log 2 State.init
        [⟨9999, 9999, false, true, 0⟩, ⟨10000, 10000, false, true, 0⟩]) :=
  firing_calls_spaced_by_deadline 2
    [⟨9999, 9999, false, true, 0⟩, ⟨10000, 10000, false, true, 0⟩] (by decide)

/-! ## Emission: claims C7 to C10 -/

theorem report_count_le_mouse_count (id : Nat) :
    ∀ (calls : List HidIn) (s : State), report_count id s calls ≤ mouse_count id s calls := by
  intro calls
  induction calls with
  | nil => intro s; simp [report_count, mouse_count]
  | cons i rest ih =>
    intro s
    have h := hid_task_reports id s i
    have hrest := ih (hid_task id s i).1
    simp only [report_count, mouse_count]
    cases hm : mouse_fires s i
    · have : reports (hid_task id s i).2 = [] := by
        by_contra hne
        have := (h.2 hne).1
        rw [hm] at this
        exact Bool.false_ne_true this
      simp [this]; exact hrest
    · simp; omega

/-- C7: a call of `hid_task` in which both gates pass while `enabled` is false emits no report,
asks neither `tud_hid_ready` nor `get_rand_32`, and still moves `mouse_start_ms` forward by
5000 (in 32-bit arithmetic). The scheduler state after a run does not depend on `enabled`: the
state reached by a disabled run with `enabled` then set is the state of the same run made with
`enabled` set throughout, so nothing is owed on re-enabling. Every call emits at most one
report, a report is emitted only in a call in which the 5000 ms gate passes and moves the
deadline by 5000, and over any run the number of reports is at most the number of passes of
the 5000 ms gate. -/
theorem disabled_call_advances_without_report (id : Nat) :
    (∀ (s : State) (i : HidIn), s.enabled = false → mouse_fires s i = true →
      (hid_task id s i).1.mouse_start_ms = (s.mouse_start_ms + 5000) % 4294967296 ∧
      reports (hid_task id s i).2 = [] ∧
      Ext.tud_hid_ready ∉ (hid_task id s i).2 ∧ Ext.get_rand_32 ∉ (hid_task id s i).2) ∧
    (∀ (s : State) (pre : List HidIn),
      with_enabled (run_hid id (with_enabled s false) pre) true
        = run_hid id (with_enabled s true) pre) ∧
    (∀ (s : State) (i : HidIn),
      (reports (hid_task id s i).2).length ≤ 1 ∧
      (reports (hid_task id s i).2 ≠ [] →
        mouse_fires s i = true ∧
        (hid_task id s i).1.mouse_start_ms = (s.mouse_start_ms + 5000) % 4294967296)) ∧
    (∀ (calls : List HidIn) (s : State), report_count id s calls ≤ mouse_count id s calls) := by
  refine ⟨?_, ?_, ?_, report_count_le_mouse_count id⟩
  · intro s i he hm
    have hw := mouse_fires_wake hm
    rw [hid_task_mouse_start, hid_task_trace]
    simp only [hm, hw, he, if_true, Bool.and_false, Bool.false_eq_true, if_false,
      List.append_nil]
    refine ⟨rfl, ?_, ?_, ?_⟩ <;> cases i.suspended <;> simp [reports, is_report]
  · intro s pre
    rw [run_hid_with_enabled, run_hid_with_enabled]
    rfl
  · intro s i
    have h := hid_task_reports id s i
    refine ⟨h.1, fun hne => ?_⟩
    have hm := (h.2 hne).1
    refine ⟨hm, ?_⟩
    rw [hid_task_mouse_start]
    simp only [hm, if_true]
    rfl

/-- Witness for C7: a disabled call at 5000 ms; a disabled run at 5000 ms and 10000 ms then
re-enabled; an enabled call at 5000 ms that emits. -/
theorem disabled_call_advances_without_report_witness :
    ((hid_task 2 (with_enabled State.init false) ⟨5000, 5000, false, true, 7⟩).1.mouse_start_ms
        = ((with_enabled State.init false).mouse_start_ms + 5000) % 4294967296 ∧
      reports (hid_task 2 (with_enabled State.init false) ⟨5000, 5000, false, true, 7⟩).2 = [] ∧
      Ext.tud_hid_ready ∉
        (hid_task 2 (with_enabled State.init false) ⟨5000, 5000, false, true, 7⟩).2 ∧
      Ext.get_rand_32 ∉
        (hid_task 2 (with_enabled State.init false) ⟨5000, 5000, false, true, 7⟩).2) ∧
    with_enabled (run_hid 2 (with_enabled State.init false)
        [⟨5000, 5000, false, true, 7⟩, ⟨10000, 10000, false, true, 7⟩]) true
      = run_hid 2 (with_enabled State.init true)
        [⟨5000, 5000, false, true, 7⟩, ⟨10000, 10000, false, true, 7⟩] ∧
    (mouse_fires State.init ⟨5000, 5000, false, true, 7⟩ = true ∧
      (hid_task 2 State.init ⟨5000, 5000, false, true, 7⟩).1.mouse_start_ms
        = (State.init.mouse_start_ms + 5000) % 4294967296) :=
  ⟨(disabled_call_advances_without_report 2).1 (with_enabled State.init false)
      ⟨5000, 5000, false, true, 7⟩ (by decide) (by decide),
   (disabled_call_advances_without_report 2).2.1 State.init
      [⟨5000, 5000, false, true, 7⟩, ⟨10000, 10000, false, true, 7⟩],
   ((disabled_call_advances_without_report 2).2.2.1 State.init
      ⟨5000, 5000, false, true, 7⟩).2 (by decide)⟩

/-- C8: a call of `hid_task` in which both gates pass with `enabled` set and the stack not ready
makes no call after the `tud_hid_ready` query: it emits no report, does not ask `get_rand_32`,
and moves `mouse_start_ms` forward by 5000 (in 32-bit arithmetic). The resulting state is the
state of the same call with the stack ready, whatever the random value, and that call emits one
report when the report id fits a byte. -/
theorem not_ready_call_skips_and_advances (id : Nat) (s : State) (i : HidIn)
    (hen : s.enabled = true) (hm : mouse_fires s i = true) (hnr : i.hid_ready = false) :
    (hid_task id s i).2 =
      (if i.suspended then [Ext.board_millis, Ext.tud_suspended, Ext.tud_remote_wakeup]
        else [Ext.board_millis, Ext.tud_suspended]) ++ [Ext.board_millis, Ext.tud_hid_ready] ∧
    reports (hid_task id s i).2 = [] ∧
    Ext.get_rand_32 ∉ (hid_task id s i).2 ∧
    (hid_task id s i).1.mouse_start_ms = (s.mouse_start_ms + 5000) % 4294967296 ∧
    (∀ r : Nat,
      (hid_task id s ⟨i.now1, i.now2, i.suspended, true, r⟩).1 = (hid_task id s i).1 ∧
      (id < 256 →
        (reports (hid_task id s ⟨i.now1, i.now2, i.suspended, true, r⟩).2).length = 1)) := by
  have hw := mouse_fires_wake hm
  have htr : (hid_task id s i).2 =
      (if i.suspended then [Ext.board_millis, Ext.tud_suspended, Ext.tud_remote_wakeup]
        else [Ext.board_millis, Ext.tud_suspended]) ++ [Ext.board_millis, Ext.tud_hid_ready] := by
    rw [hid_task_trace, send_hid_report_trace]
    simp [hm, hw, hen, hnr]
  refine ⟨htr, ?_, ?_, ?_, ?_⟩
  · rw [htr]; cases i.suspended <;> simp [reports, is_report]
  · rw [htr]; cases i.suspended <;> simp
  · rw [hid_task_mouse_start]; simp only [hm, if_true]; rfl
  · intro r
    have hm2 : mouse_fires s ⟨i.now1, i.now2, i.suspended, true, r⟩ = true := hm
    have hw2 : wake_fires s ⟨i.now1, i.now2, i.suspended, true, r⟩ = true := hw
    constructor
    · unfold mouse_fires wake_fires at hm
      simp only [Bool.and_eq_true, decide_eq_true_eq] at hm
      unfold hid_task
      simp [hm.1, hm.2, hen]
    · intro hid
      rw [hid_task_trace, send_hid_report_trace]
      simp only [hm2, hw2, hen, if_true, Bool.and_self, hid, decide_True]
      cases i.suspended <;> simp [reports, is_report]

/-- Witness for C8: an enabled call at 5000 ms with the stack not ready. -/
theorem not_ready_call_skips_and_advances_witness :
    (hid_task 2 State.init ⟨5000, 5000, false, false, 7⟩).2 =
      [Ext.board_millis, Ext.tud_suspended, Ext.board_millis, Ext.tud_hid_ready] ∧
    (hid_task 2 State.init ⟨5000, 5000, false, false, 7⟩).1.mouse_start_ms = 5000 ∧
    (hid_task 2 State.init ⟨5000, 5000, false, true, 7⟩).1
      = (hid_task 2 State.init ⟨5000, 5000, false, false, 7⟩).1 :=
  have h := not_ready_call_skips_and_advances 2 State.init ⟨5000, 5000, false, false, 7⟩
    (by decide) (by decide) (by decide)
  ⟨h.1, h.2.2.2.1, (h.2.2.2.2 7).1⟩

theorem toInt8_range (n : Nat) : -128 ≤ toInt8 n ∧ toInt8 n ≤ 127 := by
  unfold toInt8
  split <;> omega

/-- C9: with the stack ready and a report id that fits a byte, `send_hid_report` called with
the mouse report id asks `tud_hid_ready` and `get_rand_32` and hands the stack one report with
that id, buttons 0, wheel 0, pan 0, x the low byte of the random value read as a signed byte and
y the next byte read as a signed byte; x and y lie between -128 and 127, and the report is the
same for a random value and for its low 16 bits. -/
theorem mouse_report_from_random (id : Nat) (hid : id < 256) (i : HidIn)
    (hr : i.hid_ready = true) :
    send_hid_report id (id % 256) i =
      [Ext.tud_hid_ready, Ext.get_rand_32,
       Ext.tud_hid_mouse_report id 0
         (if i.r32 % 256 < 128 then (i.r32 % 256 : Int) else (i.r32 % 256 : Int) - 256)
         (if i.r32 / 256 % 256 < 128 then (i.r32 / 256 % 256 : Int)
           else (i.r32 / 256 % 256 : Int) - 256) 0 0] ∧
    (-128 ≤ (if i.r32 % 256 < 128 then (i.r32 % 256 : Int) else (i.r32 % 256 : Int) - 256) ∧
      (if i.r32 % 256 < 128 then (i.r32 % 256 : Int) else (i.r32 % 256 : Int) - 256) ≤ 127) ∧
    (-128 ≤ (if i.r32 / 256 % 256 < 128 then (i.r32 / 256 % 256 : Int)
        else (i.r32 / 256 % 256 : Int) - 256) ∧
      (if i.r32 / 256 % 256 < 128 then (i.r32 / 256 % 256 : Int)
        else (i.r32 / 256 % 256 : Int) - 256) ≤ 127) ∧
    send_hid_report id (id % 256) ⟨i.now1, i.now2, i.suspended, i.hid_ready, i.r32 % 65536⟩
      = send_hid_report id (id % 256) i := by
  have hx : toInt8 (i.r32 % 256) =
      (if i.r32 % 256 < 128 then (i.r32 % 256 : Int) else (i.r32 % 256 : Int) - 256) := by
    unfold toInt8
    rw [Nat.mod_mod]
    split <;> simp
  have hy : toInt8 (i.r32 / 256 % 256) =
      (if i.r32 / 256 % 256 < 128 then (i.r32 / 256 % 256 : Int)
        else (i.r32 / 256 % 256 : Int) - 256) := by
    unfold toInt8
    rw [Nat.mod_mod]
    split <;> simp
  refine ⟨?_, ?_, ?_, ?_⟩
  · rw [send_hid_report_trace]
    simp only [hr, hid, decide_True, Bool.and_self, if_true, hx, hy]
  · rw [← hx]; exact toInt8_range _
  · rw [← hy]; exact toInt8_range _
  · rw [send_hid_report_trace, send_hid_report_trace]
    have h1 : i.r32 % 65536 % 256 = i.r32 % 256 := by omega
    have h2 : i.r32 % 65536 / 256 % 256 = i.r32 / 256 % 256 := by omega
    simp only [h1, h2]

/-- Witness for C9: the random value 0x1234ABCD gives x = -51 and y = -85. -/
theorem mouse_report_from_random_witness :
    send_hid_report 2 (2 % 256) ⟨5000, 5000, false, true, 0x1234ABCD⟩ =
      [Ext.tud_hid_ready, Ext.get_rand_32, Ext.tud_hid_mouse_report 2 0 (-51) (-85) 0 0] :=
  (mouse_report_from_random 2 (by decide) ⟨5000, 5000, false, true, 0x1234ABCD⟩ rfl).1

/-- C10 (counterexample): from the initial state, a call at 5000 ms with the stack reporting
both suspended and HID ready requests remote wakeup and emits a mouse report in the same
call. -/
theorem wakeup_and_report_in_one_call :
    (hid_task 2 State.init ⟨5000, 5000, true, true, 0x1234ABCD⟩).2 =
      [Ext.board_millis, Ext.tud_suspended, Ext.tud_remote_wakeup, Ext.board_millis,
       Ext.tud_hid_ready, Ext.get_rand_32, Ext.tud_hid_mouse_report 2 0 (-51) (-85) 0 0] := by
  decide

/-- C10 (amended): one call of `hid_task` requests remote wakeup at most once and emits at most
one mouse report. A call that does both has both gates passing, `enabled` set and the stack
reporting suspended and HID ready; with a report id that fits a byte every such call does both.
A call in which the stack does not report both suspended and HID ready does not do both. -/
theorem wakeup_and_report_together_iff (id : Nat) (s : State) (i : HidIn) :
    List.count Ext.tud_remote_wakeup (hid_task id s i).2 ≤ 1 ∧
    (reports (hid_task id s i).2).length ≤ 1 ∧
    (Ext.tud_remote_wakeup ∈ (hid_task id s i).2 ∧ reports (hid_task id s i).2 ≠ [] →
      mouse_fires s i = true ∧ s.enabled = true ∧ i.suspended = true ∧ i.hid_ready = true) ∧
    (id < 256 → mouse_fires s i = true → s.enabled = true → i.suspended = true →
      i.hid_ready = true →
      Ext.tud_remote_wakeup ∈ (hid_task id s i).2 ∧ reports (hid_task id s i).2 ≠ []) ∧
    (¬ (i.suspended = true ∧ i.hid_ready = true) →
      ¬ (Ext.tud_remote_wakeup ∈ (hid_task id s i).2 ∧ reports (hid_task id s i).2 ≠ [])) := by
  have hrep := hid_task_reports id s i
  have hwake : Ext.tud_remote_wakeup ∈ (hid_task id s i).2 → i.suspended = true := by
    rw [hid_task_trace, send_hid_report_trace]
    cases i.suspended
    · intro h
      exfalso
      revert h
      cases wake_fires s i <;> cases (mouse_fires s i && s.enabled) <;>
        cases (i.hid_ready && decide (id < 256)) <;> simp
    · intro _; rfl
  have hboth : Ext.tud_remote_wakeup ∈ (hid_task id s i).2 ∧ reports (hid_task id s i).2 ≠ [] →
      mouse_fires s i = true ∧ s.enabled = true ∧ i.suspended = true ∧ i.hid_ready = true :=
    fun h => ⟨(hrep.2 h.2).1, (hrep.2 h.2).2.1, hwake h.1, (hrep.2 h.2).2.2⟩
  refine ⟨?_, hrep.1, hboth, ?_, ?_⟩
  · rw [hid_task_trace, send_hid_report_trace]
    cases wake_fires s i <;> cases (mouse_fires s i && s.enabled) <;>
      cases (i.hid_ready && decide (id < 256)) <;> cases i.suspended <;> simp
  · intro hid hm hen hs hr
    have hw := mouse_fires_wake hm
    rw [hid_task_trace, send_hid_report_trace]
    simp [hw, hm, hen, hs, hr, hid, reports, is_report]
  · intro hn h
    exact hn ⟨(hboth h).2.2.1, (hboth h).2.2.2⟩

/-- Witness for C10 (amended): the call of the counterexample does both, and the same call with
the stack not suspended does not. -/
theorem wakeup_and_report_together_iff_witness :
    (Ext.tud_remote_wakeup ∈ (hid_task 2 State.init ⟨5000, 5000, true, true, 7⟩).2 ∧
      reports (hid_task 2 State.init ⟨5000, 5000, true, true, 7⟩).2 ≠ []) ∧
    ¬ (Ext.tud_remote_wakeup ∈ (hid_task 2 State.init ⟨5000, 5000, false, true, 7⟩).2 ∧
      reports (hid_task 2 State.init ⟨5000, 5000, false, true, 7⟩).2 ≠ []) :=
  ⟨(wakeup_and_report_together_iff 2 State.init ⟨5000, 5000, true, true, 7⟩).2.2.2.1
      (by decide) (by decide) rfl rfl rfl,
   (wakeup_and_report_together_iff 2 State.init ⟨5000, 5000, false, true, 7⟩).2.2.2.2
      (by decide)⟩

/-! ## Scheduler gates: claims C11 to C13 -/

/-- C11: when the clock value read at the wake gate minus `wake_start_ms`, in 32-bit
arithmetic, is below 10, `hid_task` returns the state it was given and its only external call
is the one `board_millis()`: no remote wakeup, no query of the suspend flag, of the HID-ready
flag or of the RNG, no report, whatever the second clock value, the flags and the time since
`mouse_start_ms`. -/
theorem wake_gate_closed_does_nothing (id : Nat) (s : State) (i : HidIn)
    (h : sub32 i.now1 s.wake_start_ms < 10) :
    hid_task id s i = (s, [Ext.board_millis]) ∧
    (∀ (now2 : Nat) (suspended hid_ready : Bool) (r32 : Nat),
      hid_task id s ⟨i.now1, now2, suspended, hid_ready, r32⟩ = (s, [Ext.board_millis])) := by
  constructor
  · unfold hid_task; simp [h]
  · intro now2 suspended hid_ready r32
    unfold hid_task; simp [h]

/-- Witness for C11: `wake_start_ms = 10000`, `mouse_start_ms = 0`, clock 10005: the wake lag
is 5 while 10005 ms have passed since `mouse_start_ms`. -/
theorem wake_gate_closed_does_nothing_witness :
    hid_task 2 ⟨true, 0, 0, 10000, 0⟩ ⟨10005, 10005, true, true, 7⟩
      = (⟨true, 0, 0, 10000, 0⟩, [Ext.board_millis]) :=
  (wake_gate_closed_does_nothing 2 ⟨true, 0, 0, 10000, 0⟩ ⟨10005, 10005, true, true, 7⟩
    (by decide)).1

/-- C12: in a call of `hid_task`, `wake_start_ms` becomes `(wake_start_ms + 10) mod 2 ^ 32` when
the 10 ms gate passes and is unchanged otherwise, and `mouse_start_ms` becomes
`(mouse_start_ms + 5000) mod 2 ^ 32` when the 5000 ms gate also passes and is unchanged
otherwise: one interval at most per call. The new deadlines are the same for any two inputs
that pass the same gates, whatever clock values they carry. -/
theorem deadlines_advance_by_interval (id : Nat) (s : State) (i : HidIn) :
    (hid_task id s i).1.wake_start_ms
      = (if wake_fires s i then (s.wake_start_ms + 10) % 4294967296 else s.wake_start_ms) ∧
    (hid_task id s i).1.mouse_start_ms
      = (if mouse_fires s i then (s.mouse_start_ms + 5000) % 4294967296
          else s.mouse_start_ms) ∧
    (∀ j : HidIn, wake_fires s j = wake_fires s i →
      (hid_task id s j).1.wake_start_ms = (hid_task id s i).1.wake_start_ms) ∧
    (∀ j : HidIn, mouse_fires s j = mouse_fires s i →
      (hid_task id s j).1.mouse_start_ms = (hid_task id s i).1.mouse_start_ms) := by
  refine ⟨?_, ?_, ?_, ?_⟩
  · rw [hid_task_wake_start]; rfl
  · rw [hid_task_mouse_start]; rfl
  · intro j hj
    rw [hid_task_wake_start, hid_task_wake_start, hj]
  · intro j hj
    rw [hid_task_mouse_start, hid_task_mouse_start, hj]

/-- Witness for C12: from `wake_start_ms = 4294967290` and `mouse_start_ms = 4294967000` the
deadlines wrap to 4 and 4704, for a call with clock reads 100 and 5000 and for a call with
clock reads 999 and 6000 alike. -/
theorem deadlines_advance_by_interval_witness :
    (hid_task 2 ⟨true, 0, 0, 4294967290, 4294967000⟩
        ⟨100, 5000, false, true, 7⟩).1.wake_start_ms = 4 ∧
    (hid_task 2 ⟨true, 0, 0, 4294967290, 4294967000⟩
        ⟨100, 5000, false, true, 7⟩).1.mouse_start_ms = 4704 ∧
    (hid_task 2 ⟨true, 0, 0, 4294967290, 4294967000⟩
        ⟨999, 6000, true, false, 0⟩).1.wake_start_ms
      = (hid_task 2 ⟨true, 0, 0, 4294967290, 4294967000⟩
          ⟨100, 5000, false, true, 7⟩).1.wake_start_ms ∧
    (hid_task 2 ⟨true, 0, 0, 4294967290, 4294967000⟩
        ⟨999, 6000, true, false, 0⟩).1.mouse_start_ms
      = (hid_task 2 ⟨true, 0, 0, 4294967290, 4294967000⟩
          ⟨100, 5000, false, true, 7⟩).1.mouse_start_ms :=
  have h := deadlines_advance_by_interval 2 ⟨true, 0, 0, 4294967290, 4294967000⟩
    ⟨100, 5000, false, true, 7⟩
  ⟨h.1, h.2.1, h.2.2.1 ⟨999, 6000, true, false, 0⟩ (by decide),
   h.2.2.2 ⟨999, 6000, true, false, 0⟩ (by decide)⟩

/-- C13: a call of `hid_task` requests remote wakeup, once, when the 10 ms gate passes and the
stack reports the device suspended, and not at all otherwise; the request is the same whatever
`enabled`, the second clock value, the HID-ready flag and the random value are. -/
theorem wakeup_iff_gate_and_suspended (id : Nat) (s : State) (i : HidIn) :
    List.count Ext.tud_remote_wakeup (hid_task id s i).2
      = (if wake_fires s i && i.suspended then 1 else 0) ∧
    (Ext.tud_remote_wakeup ∈ (hid_task id s i).2 ↔
      (wake_fires s i = true ∧ i.suspended = true)) ∧
    (∀ (en : Bool) (now2 : Nat) (hid_ready : Bool) (r32 : Nat),
      List.count Ext.tud_remote_wakeup
          (hid_task id (with_enabled s en) ⟨i.now1, now2, i.suspended, hid_ready, r32⟩).2
        = List.count Ext.tud_remote_wakeup (hid_task id s i).2) := by
  have hcount : ∀ (t : State) (j : HidIn),
      List.count Ext.tud_remote_wakeup (hid_task id t j).2
        = (if wake_fires t j && j.suspended then 1 else 0) := by
    intro t j
    rw [hid_task_trace, send_hid_report_trace]
    cases wake_fires t j <;> cases (mouse_fires t j && t.enabled) <;>
      cases (j.hid_ready && decide (id < 256)) <;> cases j.suspended <;> simp
  refine ⟨hcount s i, ?_, ?_⟩
  · rw [← List.count_pos_iff, hcount]
    cases wake_fires s i <;> cases i.suspended <;> simp
  · intro en now2 hid_ready r32
    rw [hcount, hcount]
    rfl

/-! ## Frame conditions and callbacks: claims C14 and C15 -/

/-- C14: `enabled` starts out true; `button_task` changes it only in a call whose debounced
reading is non-zero and never touches `wake_start_ms` or `mouse_start_ms`;
`read_debounced_button` leaves `enabled` and both scheduler timestamps alone; `hid_task` (with
the `send_hid_report` it calls) leaves `enabled` and the debounce state alone; and each of the
seven stack callbacks returns the state it was given. -/
theorem enabled_changes_only_in_pressed_button_task :
    State.init.enabled = true ∧
    (∀ (s : State) (i : ButtonIn),
      (button_task s i).1.enabled ≠ s.enabled → (read_debounced_button s i).2.1 ≠ 0) ∧
    (∀ (s : State) (i : ButtonIn),
      (button_task s i).1.wake_start_ms = s.wake_start_ms ∧
      (button_task s i).1.mouse_start_ms = s.mouse_start_ms) ∧
    (∀ (s : State) (i : ButtonIn),
      (read_debounced_button s i).1.enabled = s.enabled ∧
      (read_debounced_button s i).1.wake_start_ms = s.wake_start_ms ∧
      (read_debounced_button s i).1.mouse_start_ms = s.mouse_start_ms) ∧
    (∀ (id : Nat) (s : State) (i : HidIn),
      (hid_task id s i).1.enabled = s.enabled ∧
      (hid_task id s i).1.last_button_state = s.last_button_state ∧
      (hid_task id s i).1.last_debounce_time = s.last_debounce_time) ∧
    (∀ s : State, tud_mount_cb s = s ∧ tud_umount_cb s = s ∧ tud_resume_cb s = s) ∧
    (∀ (s : State) (en : Bool), tud_suspend_cb s en = s) ∧
    (∀ (s : State) (itf : Nat) (report : List Nat) (len : Nat),
      tud_hid_report_complete_cb s itf report len = s) ∧
    (∀ (s : State) (itf rid rtype : Nat) (buffer : List Nat) (reqlen : Nat),
      (tud_hid_get_report_cb s itf rid rtype buffer reqlen).1 = s) ∧
    (∀ (s : State) (itf rid rtype : Nat) (buffer : List Nat) (bufsize : Nat),
      tud_hid_set_report_cb s itf rid rtype buffer bufsize = s) := by
  refine ⟨rfl, ?_, ?_, fun _ _ => ⟨rfl, rfl, rfl⟩, hid_task_frame, fun _ => ⟨rfl, rfl, rfl⟩,
    fun _ _ => rfl, fun _ _ _ _ => rfl, fun _ _ _ _ _ _ => rfl, fun _ _ _ _ _ _ => rfl⟩
  · intro s i hne h0
    apply hne
    unfold button_task
    simp only [h0, ne_eq, not_true_eq_false, if_false]
    rfl
  · intro s i
    unfold button_task
    by_cases h0 : (read_debounced_button s i).2.1 = 0
    · simp only [h0, ne_eq, not_true_eq_false, if_false]
      exact ⟨rfl, rfl⟩
    · simp only [h0, ne_eq, not_false_eq_true, if_true]
      exact ⟨rfl, rfl⟩

/-- Witness for C14: the call that promotes raw 1 changes `enabled`, and its reading is 1. -/
theorem enabled_changes_only_in_pressed_button_task_witness :
    (read_debounced_button State.init ⟨1, 0, 51⟩).2.1 ≠ 0 :=
  enabled_changes_only_in_pressed_button_task.2.1 State.init ⟨1, 0, 51⟩ (by decide)

/-- C15: `tud_hid_get_report_cb` returns 0 for every instance, report id, report type, buffer
and requested length, leaving the buffer and the state as they were; `tud_hid_set_report_cb`
leaves the state as it was for every input. -/
theorem get_report_returns_zero (s : State) (itf rid rtype : Nat) (buffer : List Nat)
    (len : Nat) :
    tud_hid_get_report_cb s itf rid rtype buffer len = (s, buffer, 0) ∧
    tud_hid_set_report_cb s itf rid rtype buffer len = s :=
  ⟨rfl, rfl⟩

/-! ## Debounce epoch: claims C16 and C17 -/

/-- C16 (evaluation of the code at the example of the claim): from the initial state (stable
value 0) two consecutive calls read raw 1, at 10 ms and at 20 ms. The stable value is still 0
after the first call and the epoch is 10; the second call, whose raw reading equals the raw
reading of the call before it, moves the epoch to 20. -/
theorem second_equal_raw_read_resets_epoch :
    (read_debounced_button State.init ⟨1, 10, 10⟩).1.last_button_state = 0 ∧
    (read_debounced_button State.init ⟨1, 10, 10⟩).1.last_debounce_time = 10 ∧
    (read_debounced_button (read_debounced_button State.init ⟨1, 10, 10⟩).1
        ⟨1, 20, 20⟩).1.last_debounce_time = 20 := by
  decide

/-- A call whose raw level equals the stored level, or whose second clock read is at most 50
past the first in 32-bit arithmetic, leaves the stored level as it was. -/
theorem reader_keeps_mod (s : State) (i : ButtonIn)
    (h : i.raw = s.last_button_state ∨ sub32 i.t2 i.t1 ≤ 50) :
    (read_debounced_button s i).1.last_button_state = s.last_button_state := by
  unfold read_debounced_button
  by_cases hr : i.raw = s.last_button_state
  · simp [hr]
  · rcases h with h | h
    · exact absurd h hr
    · simp [hr]
      omega

theorem button_task_idle (s : State) (i : ButtonIn) (h0 : s.last_button_state = 0)
    (hi : sub32 i.t2 i.t1 ≤ 50) :
    (read_debounced_button s i).2.1 = 0 ∧
    (button_task s i).1.last_button_state = 0 ∧
    (button_task s i).1.enabled = s.enabled ∧
    led_writes (button_task s i).2 = [] := by
  have hk : (read_debounced_button s i).2.1 = 0 := by
    rw [reader_ret_eq_state, reader_keeps_mod s i (Or.inr hi), h0]
  refine ⟨hk, ?_, ?_, ?_⟩
  · unfold button_task
    simp only [hk, ne_eq, not_true_eq_false, if_false]
    rw [← reader_ret_eq_state, hk]
  · unfold button_task
    simp only [hk, ne_eq, not_true_eq_false, if_false]
    rfl
  · unfold button_task
    simp only [hk, ne_eq, not_true_eq_false, if_false, led_writes_reader]

theorem button_task_run_idle :
    ∀ (calls : List ButtonIn) (s : State), s.last_button_state = 0 →
      (∀ i ∈ calls, sub32 i.t2 i.t1 ≤ 50) →
      (run_button_task s calls).enabled = s.enabled ∧
      (∀ tr ∈ button_task_traces s calls, led_writes tr = []) := by
  intro calls
  induction calls with
  | nil => intro s _ _; simp [run_button_task, button_task_traces]
  | cons i rest ih =>
    intro s h0 hall
    have hi := button_task_idle s i h0 (hall i (List.mem_cons_self _ _))
    have hrest := ih (button_task s i).1 hi.2.1 (fun j hj => hall j (List.mem_cons_of_mem _ hj))
    simp only [run_button_task, button_task_traces, List.mem_cons]
    refine ⟨by rw [hrest.1, hi.2.2.1], ?_⟩
    intro tr htr
    rcases htr with htr | htr
    · rw [htr]; exact hi.2.2.2
    · exact hrest.2 tr htr

theorem button_reads_idle :
    ∀ (calls : List ButtonIn) (s : State), s.last_button_state = 0 →
      (∀ i ∈ calls, sub32 i.t2 i.t1 ≤ 50) → ∀ r ∈ button_reads s calls, r = 0 := by
  intro calls
  induction calls with
  | nil => intro s _ _ r hr; simp [button_reads] at hr
  | cons i rest ih =>
    intro s h0 hall r hr
    have hk : (read_debounced_button s i).1.last_button_state = 0 := by
      rw [reader_keeps_mod s i (Or.inr (hall i (List.mem_cons_self _ _))), h0]
    simp only [button_reads, List.mem_cons] at hr
    rcases hr with hr | hr
    · rw [hr, reader_ret_eq_state, hk]
    · exact ih _ hk (fun j hj => hall j (List.mem_cons_of_mem _ hj)) r hr

/-- C17: from the initial state, for every sequence of raw levels and clock reads in which the
second clock read of each call is at most 50 ms past the first (in 32-bit arithmetic; equal
reads included), `read_debounced_button` returns 0 on every call, and over the same calls of
`button_task` the flag `enabled` is true after every call and no call writes the LED. -/
theorem button_never_registers (calls : List ButtonIn)
    (h : ∀ i ∈ calls, sub32 i.t2 i.t1 ≤ 50) :
    (∀ r ∈ button_reads State.init calls, r = 0) ∧
    (∀ n : Nat, (run_button_task State.init (calls.take n)).enabled = true) ∧
    (∀ tr ∈ button_task_traces State.init calls, led_writes tr = []) := by
  refine ⟨button_reads_idle calls State.init rfl h, ?_,
    (button_task_run_idle calls State.init rfl h).2⟩
  intro n
  have := (button_task_run_idle (calls.take n) State.init rfl
    (fun i hi => h i (List.mem_of_mem_take hi))).1
  rw [this]
  rfl

/-- Witness for C17: the button held at raw 1 for 200 calls, one per millisecond. -/
theorem button_never_registers_witness :
    (∀ r ∈ button_reads State.init (held_true 200), r = 0) ∧
    (∀ n : Nat, (run_button_task State.init ((held_true 200).take n)).enabled = true) ∧
    (∀ tr ∈ button_task_traces State.init (held_true 200), led_writes tr = []) :=
  button_never_registers (held_true 200) (by
    intro i hi
    unfold held_true at hi
    simp only [List.mem_map] at hi
    obtain ⟨k, _, hk⟩ := hi
    subst hk
    show sub32 k k ≤ 50
    unfold sub32
    omega)

/-! ## Wraparound of the wake gate: claim C18 -/

theorem run_hid_append (id : Nat) :
    ∀ (xs ys : List HidIn) (s : State),
      run_hid id s (xs ++ ys) = run_hid id (run_hid id s xs) ys := by
  intro xs
  induction xs with
  | nil => intro ys s; rfl
  | cons x xs ih => intro ys s; exact ih ys (hid_task id s x).1

/-- The lag left by a call, on the clock value the call read: unchanged below 10, reduced by
10 otherwise. -/
theorem wake_lag_step (id : Nat) (s : State) (i : HidIn) :
    sub32 i.now1 (hid_task id s i).1.wake_start_ms =
      if sub32 i.now1 s.wake_start_ms < 10 then sub32 i.now1 s.wake_start_ms
      else sub32 i.now1 s.wake_start_ms - 10 := by
  rw [hid_task_wake_start]
  unfold wake_fires
  by_cases h : sub32 i.now1 s.wake_start_ms < 10
  · simp [h]
  · simp only [h, not_false_eq_true, decide_True, if_true, if_false]
    unfold sub32 add32 at *
    omega

theorem wake_lag_carry {n c w : Nat} (h1 : sub32 n c ≤ 10) (h2 : sub32 c w ≤ 9) :
    sub32 n w ≤ 19 := by
  unfold sub32 at *
  omega

/-- A call made after a clock step of at most 10 from a lag of at most 9 leaves a lag of at
most 9. -/
theorem wake_lag_after (id : Nat) (s : State) (i : HidIn) (c : Nat)
    (hl : sub32 c s.wake_start_ms ≤ 9) (ha : sub32 i.now1 c ≤ 10) :
    sub32 i.now1 (hid_task id s i).1.wake_start_ms ≤ 9 := by
  have h19 := wake_lag_carry ha hl
  rw [wake_lag_step]
  split <;> omega

theorem wake_lags_bounded (id : Nat) :
    ∀ (calls : List HidIn) (s : State) (c : Nat),
      sub32 c s.wake_start_ms ≤ 9 → adv_ok c calls = true →
      ∀ l ∈ wake_lags id s calls, l ≤ 9 := by
  intro calls
  induction calls with
  | nil => intro s c _ _ l hl; simp [wake_lags] at hl
  | cons i rest ih =>
    intro s c hlag hadv l hl
    simp only [adv_ok, Bool.and_eq_true, decide_eq_true_eq] at hadv
    have hafter := wake_lag_after id s i c hlag hadv.1
    simp only [wake_lags, List.mem_cons] at hl
    rcases hl with hl | hl
    · rw [hl]; exact hafter
    · exact ih _ i.now1 hafter hadv.2 l hl

theorem run_hid_lag (id : Nat) :
    ∀ (pre : List HidIn) (s : State) (c : Nat) (a : HidIn),
      sub32 c s.wake_start_ms ≤ 9 → adv_ok c (pre ++ [a]) = true →
      sub32 a.now1 (run_hid id s (pre ++ [a])).wake_start_ms ≤ 9 := by
  intro pre
  induction pre with
  | nil =>
    intro s c a hlag hadv
    simp only [List.nil_append, adv_ok, Bool.and_true, decide_eq_true_eq] at hadv
    exact wake_lag_after id s a c hlag hadv
  | cons i rest ih =>
    intro s c a hlag hadv
    simp only [List.cons_append, adv_ok, Bool.and_eq_true, decide_eq_true_eq] at hadv
    exact ih _ i.now1 a (wake_lag_after id s i c hlag hadv.1) hadv.2

theorem run_hid_same_clock (id : Nat) (t : Nat) :
    ∀ (mid : List HidIn) (s : State), sub32 t s.wake_start_ms ≤ 9 →
      (∀ m ∈ mid, m.now1 = t) → run_hid id s mid = s := by
  intro mid
  induction mid with
  | nil => intro s _ _; rfl
  | cons m rest ih =>
    intro s hlag hall
    have hm := hall m (List.mem_cons_self _ _)
    have hstep : hid_task id s m = (s, [Ext.board_millis]) := by
      unfold hid_task
      have : sub32 m.now1 s.wake_start_ms < 10 := by rw [hm]; omega
      simp [this]
    simp only [run_hid, hstep]
    exact ih s hlag (fun j hj => hall j (List.mem_cons_of_mem _ hj))

/-- C18: with the lag `L = (now - wake_start_ms) mod 2 ^ 32` measured on the clock value a call
reads at the wake gate, a call with `L < 10` leaves `L` as it is and a call with `L ≥ 10` leaves
`L - 10`. Hence, from a state whose lag on the last clock value `c` is at most 9, over calls
whose clock value moves by at most 10 (mod `2 ^ 32`) from each call to the next, the lag is at
most 9 after every call; and once a call has been made on some clock value, a later call on
the same clock value, with only calls on that value in between, does not pass the wake gate,
so of two such calls at most one fires. Clock values are taken mod `2 ^ 32`, so a step from
`2 ^ 32 - 1` to 0 is a step of 1. -/
theorem wake_gate_survives_wraparound (id : Nat) :
    (∀ (s : State) (i : HidIn),
      sub32 i.now1 (hid_task id s i).1.wake_start_ms =
        if sub32 i.now1 s.wake_start_ms < 10 then sub32 i.now1 s.wake_start_ms
        else sub32 i.now1 s.wake_start_ms - 10) ∧
    (∀ (calls : List HidIn) (s : State) (c : Nat),
      sub32 c s.wake_start_ms ≤ 9 → adv_ok c calls = true →
      ∀ l ∈ wake_lags id s calls, l ≤ 9) ∧
    (∀ (pre : List HidIn) (a : HidIn) (mid : List HidIn) (b : HidIn) (s : State) (c : Nat),
      sub32 c s.wake_start_ms ≤ 9 → adv_ok c (pre ++ [a]) = true →
      (∀ m ∈ mid, m.now1 = a.now1) → b.now1 = a.now1 →
      ¬ (wake_fires (run_hid id s pre) a = true ∧
          wake_fires (run_hid id s (pre ++ [a] ++ mid)) b = true)) := by
  refine ⟨wake_lag_step id, wake_lags_bounded id, ?_⟩
  intro pre a mid b s c hlag hadv hmid hb hboth
  have hla := run_hid_lag id pre s c a hlag hadv
  have hrun : run_hid id s (pre ++ [a] ++ mid) = run_hid id s (pre ++ [a]) := by
    rw [run_hid_append id (pre ++ [a]) mid]
    exact run_hid_same_clock id a.now1 mid _ hla hmid
  have h2 := hboth.2
  rw [hrun] at h2
  unfold wake_fires at h2
  simp only [decide_eq_true_eq, hb] at h2
  omega

/-- Witness for C18: `wake_start_ms = 4294967290`, last clock value 4294967295 (lag 5); calls
at 4294967295, then two calls at 5 after the wrap (lag 11 on the first of them, which fires and
leaves `wake_start_ms = 4`), then one at 9. The lags stay at most 9, and the two calls at clock
value 5 do not both fire. -/
theorem wake_gate_survives_wraparound_witness :
    (∀ l ∈ wake_lags 2 ⟨true, 0, 0, 4294967290, 0⟩
        [⟨4294967295, 4294967295, false, true, 7⟩, ⟨5, 5, false, true, 7⟩,
         ⟨5, 5, false, true, 7⟩, ⟨9, 9, false, true, 7⟩], l ≤ 9) ∧
    ¬ (wake_fires (run_hid 2 ⟨true, 0, 0, 4294967290, 0⟩
          [⟨4294967295, 4294967295, false, true, 7⟩]) ⟨5, 5, false, true, 7⟩ = true ∧
        wake_fires (run_hid 2 ⟨true, 0, 0, 4294967290, 0⟩
          ([⟨4294967295, 4294967295, false, true, 7⟩] ++ [⟨5, 5, false, true, 7⟩] ++ []))
          ⟨5, 5, false, true, 7⟩ = true) :=
  ⟨(wake_gate_survives_wraparound 2).2.1
      [⟨4294967295, 4294967295, false, true, 7⟩, ⟨5, 5, false, true, 7⟩,
       ⟨5, 5, false, true, 7⟩, ⟨9, 9, false, true, 7⟩] ⟨true, 0, 0, 4294967290, 0⟩ 4294967295
      (by decide) (by decide),
   (wake_gate_survives_wraparound 2).2.2 [⟨4294967295, 4294967295, false, true, 7⟩]
      ⟨5, 5, false, true, 7⟩ [] ⟨5, 5, false, true, 7⟩ ⟨true, 0, 0, 4294967290, 0⟩ 4294967295
      (by decide) (by decide) (by simp) rfl⟩

/-! ## Nesting of the two timers: claim C19 -/

/-- One step from deadlines that are at most the previous clock value and multiples of their
intervals: the bounds against the clock values of the call and the multiples are kept. -/
theorem hid_task_nested_step (id : Nat) (s : State) (i : HidIn) (prev : Nat)
    (hw : s.wake_start_ms ≤ prev) (hm : s.mouse_start_ms ≤ prev)
    (hw10 : s.wake_start_ms % 10 = 0) (hm5000 : s.mouse_start_ms % 5000 = 0)
    (h1 : prev ≤ i.now1) (h2 : i.now1 ≤ i.now2) (h3 : i.now2 < 4294967296) :
    (hid_task id s i).1.wake_start_ms ≤ i.now1 ∧
    (hid_task id s i).1.mouse_start_ms ≤ (if wake_fires s i then i.now2 else i.now1) ∧
    (hid_task id s i).1.wake_start_ms % 10 = 0 ∧
    (hid_task id s i).1.mouse_start_ms % 5000 = 0 := by
  rw [hid_task_wake_start, hid_task_mouse_start]
  cases hf : wake_fires s i
  · have hmf : mouse_fires s i = false := by unfold mouse_fires; simp [hf]
    simp only [hmf, Bool.false_eq_true, if_false]
    omega
  · have hb := wake_fires_bound hf (by omega) (by omega)
    cases hmf : mouse_fires s i
    · simp only [Bool.false_eq_true, if_false, if_true, hb.1]
      omega
    · have hbm := mouse_fires_bound hmf (by omega) h3
      simp only [if_true, hb.1, hbm.1]
      omega

theorem run_hid_nested (id : Nat) :
    ∀ (pre : List HidIn) (s : State) (prev : Nat) (rest : List HidIn),
      s.wake_start_ms ≤ prev → s.mouse_start_ms ≤ prev →
      s.wake_start_ms % 10 = 0 → s.mouse_start_ms % 5000 = 0 →
      clock_ok prev (pre ++ rest) = true →
      ∃ q : Nat, (run_hid id s pre).wake_start_ms ≤ q ∧ (run_hid id s pre).mouse_start_ms ≤ q ∧
        (run_hid id s pre).wake_start_ms % 10 = 0 ∧
        (run_hid id s pre).mouse_start_ms % 5000 = 0 ∧ clock_ok q rest = true := by
  intro pre
  induction pre with
  | nil => intro s prev rest hw hm hw10 hm5 hc; exact ⟨prev, hw, hm, hw10, hm5, hc⟩
  | cons i tl ih =>
    intro s prev rest hw hm hw10 hm5 hc
    simp only [List.cons_append, clock_ok, Bool.and_eq_true, decide_eq_true_eq] at hc
    obtain ⟨⟨⟨h1, h2⟩, h3⟩, hrest⟩ := hc
    have hstep := hid_task_nested_step id s i prev hw hm hw10 hm5 h1 h2 h3
    have hle := hid_task_deadlines_le id s i prev hw hm h1 h2 h3
    exact ih (hid_task id s i).1 i.now2 rest hle.1 hle.2 hstep.2.2.1 hstep.2.2.2 hrest

theorem mouse_count_le_wake_count (id : Nat) :
    ∀ (calls : List HidIn) (s : State), mouse_count id s calls ≤ wake_count id s calls := by
  intro calls
  induction calls with
  | nil => intro s; simp [mouse_count, wake_count]
  | cons i rest ih =>
    intro s
    have hrest := ih (hid_task id s i).1
    simp only [mouse_count, wake_count]
    cases hm : mouse_fires s i
    · simp; omega
    · rw [mouse_fires_wake hm]; simp; omega

/-- C19: in every call of `hid_task`, `mouse_start_ms` changes only if `wake_start_ms` changes
too, and a report is emitted only in a call that advances both deadlines by their intervals.
Over a run from the initial state with a non-decreasing clock below `2 ^ 32`, after every
call `wake_start_ms` is at most the clock value read at the wake gate and a multiple of 10, and
`mouse_start_ms` is at most the last clock value the call read and a multiple of 5000. Over any
run the 5000 ms gate passes at most as often as the 10 ms gate. -/
theorem mouse_timer_nested_in_wake_timer (id : Nat) :
    (∀ (s : State) (i : HidIn),
      (hid_task id s i).1.mouse_start_ms ≠ s.mouse_start_ms →
      (hid_task id s i).1.wake_start_ms ≠ s.wake_start_ms) ∧
    (∀ (s : State) (i : HidIn), reports (hid_task id s i).2 ≠ [] →
      (hid_task id s i).1.wake_start_ms = (s.wake_start_ms + 10) % 4294967296 ∧
      (hid_task id s i).1.mouse_start_ms = (s.mouse_start_ms + 5000) % 4294967296 ∧
      (hid_task id s i).1.wake_start_ms ≠ s.wake_start_ms ∧
      (hid_task id s i).1.mouse_start_ms ≠ s.mouse_start_ms) ∧
    (∀ (pre : List HidIn) (i : HidIn) (post : List HidIn),
      clock_ok 0 (pre ++ i :: post) = true →
      (hid_task id (run_hid id State.init pre) i).1.wake_start_ms ≤ i.now1 ∧
      (hid_task id (run_hid id State.init pre) i).1.mouse_start_ms
        ≤ (if wake_fires (run_hid id State.init pre) i then i.now2 else i.now1) ∧
      (hid_task id (run_hid id State.init pre) i).1.wake_start_ms % 10 = 0 ∧
      (hid_task id (run_hid id State.init pre) i).1.mouse_start_ms % 5000 = 0) ∧
    (∀ (calls : List HidIn) (s : State), mouse_count id s calls ≤ wake_count id s calls) := by
  have hwne : ∀ w : Nat, add32 w 10 ≠ w := by intro w; unfold add32; omega
  have hmne : ∀ m : Nat, add32 m 5000 ≠ m := by intro m; unfold add32; omega
  refine ⟨?_, ?_, ?_, mouse_count_le_wake_count id⟩
  · intro s i hne
    rw [hid_task_mouse_start] at hne
    rw [hid_task_wake_start]
    cases hm : mouse_fires s i
    · simp [hm] at hne
    · simp only [mouse_fires_wake hm, if_true]
      exact hwne _
  · intro s i hrep
    have hm := ((hid_task_reports id s i).2 hrep).1
    rw [hid_task_wake_start, hid_task_mouse_start]
    simp only [hm, mouse_fires_wake hm, if_true]
    exact ⟨rfl, rfl, hwne _, hmne _⟩
  · intro pre i post hc
    obtain ⟨q, hw, hm, hw10, hm5, hq⟩ := run_hid_nested id pre State.init 0 (i :: post)
      (Nat.le_refl _) (Nat.le_refl _) rfl rfl hc
    simp only [clock_ok, Bool.and_eq_true, decide_eq_true_eq] at hq
    obtain ⟨⟨⟨h1, h2⟩, h3⟩, _⟩ := hq
    exact hid_task_nested_step id _ i q hw hm hw10 hm5 h1 h2 h3

/-- Witness for C19: calls at 5, 10 and 5000 ms from the initial state; the third call emits a
report and advances both deadlines. -/
theorem mouse_timer_nested_in_wake_timer_witness :
    ((hid_task 2 State.init ⟨5000, 5000, false, true, 7⟩).1.wake_start_ms
        ≠ State.init.wake_start_ms) ∧
    ((hid_task 2 State.init ⟨5000, 5000, false, true, 7⟩).1.wake_start_ms
        = (State.init.wake_start_ms + 10) % 4294967296 ∧
      (hid_task 2 State.init ⟨5000, 5000, false, true, 7⟩).1.mouse_start_ms
        = (State.init.mouse_start_ms + 5000) % 4294967296 ∧
      (hid_task 2 State.init ⟨5000, 5000, false, true, 7⟩).1.wake_start_ms
        ≠ State.init.wake_start_ms ∧
      (hid_task 2 State.init ⟨5000, 5000, false, true, 7⟩).1.mouse_start_ms
        ≠ State.init.mouse_start_ms) ∧
    ((hid_task 2 (run_hid 2 State.init [⟨5, 5, false, true, 7⟩, ⟨10, 10, false, true, 7⟩])
        ⟨5000, 5000, false, true, 7⟩).1.wake_start_ms ≤ 5000 ∧
      (hid_task 2 (run_hid 2 State.init [⟨5, 5, false, true, 7⟩, ⟨10, 10, false, true, 7⟩])
        ⟨5000, 5000, false, true, 7⟩).1.mouse_start_ms
        ≤ (if wake_fires (run_hid 2 State.init
              [⟨5, 5, false, true, 7⟩, ⟨10, 10, false, true, 7⟩]) ⟨5000, 5000, false, true, 7⟩
            then 5000 else 5000) ∧
      (hid_task 2 (run_hid 2 State.init [⟨5, 5, false, true, 7⟩, ⟨10, 10, false, true, 7⟩])
        ⟨5000, 5000, false, true, 7⟩).1.wake_start_ms % 10 = 0 ∧
      (hid_task 2 (run_hid 2 State.init [⟨5, 5, false, true, 7⟩, ⟨10, 10, false, true, 7⟩])
        ⟨5000, 5000, false, true, 7⟩).1.mouse_start_ms % 5000 = 0) :=
  ⟨(mouse_timer_nested_in_wake_timer 2).1 State.init ⟨5000, 5000, false, true, 7⟩ (by decide),
   (mouse_timer_nested_in_wake_timer 2).2.1 State.init ⟨5000, 5000, false, true, 7⟩
     (by decide),
   (mouse_timer_nested_in_wake_timer 2).2.2.1 [⟨5, 5, false, true, 7⟩, ⟨10, 10, false, true, 7⟩]
     ⟨5000, 5000, false, true, 7⟩ [] (by decide)⟩

end MouseJiggler
